import Mathlib

/-! # opseq: a tombola sequencer

A shallow embedding of `tombola.go`, `midi.go` and `main.go`.

Conventions of the embedding
* `float64` values are elements of a linearly ordered field `α` with a floor
  function (every finite `float64` is a rational number and all definitions
  run on `ℚ`).  Where the container angle is computed, in the conversion of a
  tick interval to seconds and in the integration of the angle, every
  arithmetic result passes through a rounding function `fl`, an input of the
  step; `float64` is the rounding to the nearest `float64` on `ℚ`, the
  identity is exact arithmetic.  The other computations on floats are exact.
  The functions of Go's `math` package that the program calls (`Pi`, `Cos`,
  `Sin`) are passed in as a `GoMath α` record.
* `uint8` values are natural numbers; conversions to `uint8` reduce modulo 256.
* Go's `int` (`noteID`, the keys of `notes`) is `Int`.  The counter starts at 0
  and is only ever changed by `t.noteID++`, once per spawned note, so the
  wrap-around of the machine word is never reached and is not modelled.
* `*cp.Body` pointers are indices into a heap of `Body` records owned by the
  sequencer state; `cp.NewBody` allocates at the end of the heap.
* `cp.Space` is a registry of bodies and shapes with the operations the
  program calls (`AddBody`, `AddShape`, `RemoveBody`, `Step`).  What the
  physics solver decides during a step (where the balls move, which collision
  callbacks fire) is an input of `Step`.
* The order in which `range t.notes` yields the keys is an input of
  `deleteDropouts`.
-/

namespace Opseq

/-! ## Numeric conversions -/

/-- Conversion of an integer to `uint8`: reduction modulo 256. -/
def uint8 (i : Int) : Nat := (i % 256).toNat

/-- Conversion of a float to an integer: the fractional part is discarded
(truncation towards zero). -/
def truncate {α : Type} [LinearOrderedField α] [FloorRing α] (q : α) : Int :=
  if 0 ≤ q then ⌊q⌋ else ⌈q⌉

/-- The position of the highest set bit of `n` (0 for `n < 2`), by halving at
most `fuel` times. -/
def log2Fuel : Nat → Nat → Nat
  | 0, _ => 0
  | fuel + 1, n => if n < 2 then 0 else log2Fuel fuel (n / 2) + 1

/-- The binary exponent of a positive rational `a`: the `e` with
`2^e ≤ a < 2^(e+1)`. -/
def exponent (a : ℚ) : Int :=
  let e0 : Int :=
    (log2Fuel a.num.natAbs a.num.natAbs : Int) - (log2Fuel a.den a.den : Int)
  if (2 : ℚ) ^ e0 ≤ a then e0 else e0 - 1

/-- Rounding of a non-negative rational to the nearest integer, ties to the
even one. -/
def roundHalfEven (s : ℚ) : Int :=
  let n : Int := ⌊s⌋
  let r : ℚ := s - n
  if r < 1 / 2 then n
  else if 1 / 2 < r then n + 1
  else if n % 2 = 0 then n else n + 1

/-- Rounding of a rational to the nearest `float64` (53 significant bits, ties
to even).  The range of the exponent is not modelled: no overflow to infinity
and no subnormal numbers. -/
def float64 (q : ℚ) : ℚ :=
  if q = 0 then 0
  else
    let u : ℚ := (2 : ℚ) ^ (exponent |q| - 52)
    let n : Int := roundHalfEven (|q| / u)
    if 0 < q then n * u else -(n * u)

/-! ## midi.go -/

/-- The device behind a `midiInterface`: the byte strings handed to
`dev.Write`, oldest first. -/
structure midiInterface where
  written : List (List Nat)
deriving DecidableEq, Repr

/-- `sendNoteOn`: `mi.dev.Write([]byte{0x90 | ch, pitch, vel})`. -/
def midiInterface.sendNoteOn (mi : midiInterface) (ch pitch vel : Nat) : midiInterface :=
  { mi with written := mi.written ++ [[(0x90 ||| ch) % 256, pitch % 256, vel % 256]] }

/-- `sendNoteOff`: `mi.dev.Write([]byte{0x80 | ch, pitch, vel})`. -/
def midiInterface.sendNoteOff (mi : midiInterface) (ch pitch vel : Nat) : midiInterface :=
  { mi with written := mi.written ++ [[(0x80 ||| ch) % 256, pitch % 256, vel % 256]] }

/-- `noteInfo`: `return pkt[0] & 0x0F, pkt[1], pkt[2]` on a `[3]byte`. -/
def noteInfo (pkt : Nat × Nat × Nat) : Nat × Nat × Nat :=
  (pkt.1 &&& 0x0F, pkt.2.1, pkt.2.2)

/-! ## main.go -/

/-- The `config` struct of main.go. -/
structure config where
  inChannel : Nat
  outChannel : Nat
  devName : String
deriving DecidableEq, Repr

/-- `parseFlags`, with the parsed values of `-inch`, `-outch` and `-dev` as
arguments: the channels are stored as `uint8(*in - 1)` and `uint8(*out - 1)`. -/
def parseFlags (inch outch : Int) (dev : String) : config :=
  { inChannel := uint8 (inch - 1), outChannel := uint8 (outch - 1), devName := dev }

/-! ## tombola.go: velocity of an outgoing note -/

/-- The number that `handleCollision` converts to `uint8`, from the length `x`
of the total impulse: `impulse := math.Min(1.0, x*10)`, then `60 + 60*impulse`. -/
def velocityArg {α : Type} [LinearOrderedField α] (x : α) : α :=
  60 + 60 * min 1 (x * 10)

/-- The velocity computed in `handleCollision`: `vel := uint8(60 + 60*impulse)`. -/
def velocity {α : Type} [LinearOrderedField α] [FloorRing α] (x : α) : Nat :=
  uint8 (truncate (velocityArg x))

/-! ## tombola.go: data model -/

/-- Go's `math` package as far as the program uses it. -/
structure GoMath (α : Type) where
  Pi : α
  Cos : α → α
  Sin : α → α

/-- The package `github.com/scgolang/midi` as far as the program uses it. -/
structure Packet where
  Data : Nat × Nat × Nat
  Err : Option String
deriving DecidableEq, Repr

/-- The decoder of the MIDI package: `midi.GetMessageType` and the constant
`midi.MessageTypeNoteOn`. -/
structure GoMidi where
  GetMessageType : Packet → Int
  MessageTypeNoteOn : Int

/-- `cp.Vector`. -/
structure Vector (α : Type) where
  X : α
  Y : α
deriving DecidableEq, Repr

/-- `tombolaNote`: the pitch and the pointer to the note's body.  Both fields
are set once, by `addNote`. -/
structure tombolaNote where
  pitch : Nat
  body : Nat
deriving DecidableEq, Repr

/-- The fields of a `cp.Body` that the program sets or reads: whether the body
is kinematic, the mass the program gives it (`none` if it gives none), the
position and the angle that the engine integrates, the angular velocity, and
`UserData`.  (The moment of inertia, which the engine computes, is left out.) -/
structure Body (α : Type) where
  kinematic : Bool
  mass : Option α
  position : Vector α
  angle : α
  angularVelocity : α
  UserData : Option tombolaNote
deriving DecidableEq, Repr

/-- The two classes of `cp.Shape` the program creates. -/
inductive ShapeClass (α : Type) where
  | Segment (a b : Vector α) (r : α)
  | Circle (radius : α) (offset : Vector α)
deriving DecidableEq, Repr

/-- A `cp.Shape`: the body it is attached to, its class, elasticity and
collision type. -/
structure Shape (α : Type) where
  body : Nat
  cls : ShapeClass α
  elasticity : α
  collisionType : Nat
deriving DecidableEq, Repr

/-- A `cp.Space`: gravity, the registered bodies and the registered shapes. -/
@[ext]
structure Space (α : Type) where
  gravity : Vector α
  bodies : List Nat
  shapes : List (Shape α)
deriving DecidableEq, Repr

/-- `cp.NewSpace()`. -/
def NewSpace {α : Type} [Zero α] : Space α :=
  { gravity := ⟨0, 0⟩, bodies := [], shapes := [] }

/-- `space.SetGravity(g)`. -/
def Space.SetGravity {α : Type} (s : Space α) (g : Vector α) : Space α :=
  { s with gravity := g }

/-- `space.AddBody(b)`. -/
def Space.AddBody {α : Type} (s : Space α) (b : Nat) : Space α :=
  { s with bodies := s.bodies ++ [b] }

/-- `space.AddShape(sh)`. -/
def Space.AddShape {α : Type} (s : Space α) (sh : Shape α) : Space α :=
  { s with shapes := s.shapes ++ [sh] }

/-- `space.RemoveBody(b)`: the body leaves the list of registered bodies; the
list of shapes is not touched. -/
def Space.RemoveBody {α : Type} (s : Space α) (b : Nat) : Space α :=
  { s with bodies := s.bodies.erase b }

/-- `tombolaSeq`, together with the heap of the `cp.Body` objects it has
allocated (a `*cp.Body` is an index into `heap`). -/
@[ext]
structure tombolaSeq (α : Type) where
  inChannel : Nat
  outChannel : Nat
  midi : midiInterface
  heap : List (Body α)
  space : Space α
  seg : Nat
  notes : Finmap (fun _ : Int => tombolaNote)
  noteID : Int

section Constants

variable {α : Type} [LinearOrderedField α]

def gravity : α := 5
def ballRadius : α := 3 / 100
def ballMass : α := 5 / 100
def ballElasticity : α := 9 / 10
def segmentSides : Nat := 6
def segmentElasticity : α := 3 / 10
def segmentRotation : α := 6 / 10
/-- `physUpdateCycle = 10 * time.Millisecond`, in nanoseconds. -/
def physUpdateCycle : Int := 10 * 1000000
def collSegment : Nat := 1
def collNote : Nat := 2

end Constants

/-! ## tombola.go: operations -/

section Operations

variable {α : Type} [LinearOrderedField α] [FloorRing α]

/-- One pass of the loop in `setupPhysics`: with `v1` the start vertex, build
the segment to the vertex at `angle`, register it and continue from `v2`. -/
def setupSegment (m : GoMath α) (seg : Nat) (acc : Space α × Vector α) (i : Nat) :
    Space α × Vector α :=
  let angle : α := (2 * m.Pi / (segmentSides : α)) * ((i + 1 : Nat) : α)
  let v2 : Vector α := ⟨m.Cos angle, m.Sin angle⟩
  let shape : Shape α :=
    { body := seg, cls := ShapeClass.Segment acc.2 v2 (1 / 100),
      elasticity := segmentElasticity, collisionType := collSegment }
  (acc.1.AddShape shape, v2)

/-- `setupPhysics`: a fresh space with gravity, the kinematic container body
with its angular velocity, the wall segments (the loop over
`i = 0 .. segmentSides-1`), and the registration of the container body. -/
def setupPhysics (m : GoMath α) (t : tombolaSeq α) : tombolaSeq α :=
  let space : Space α := NewSpace.SetGravity ⟨0, gravity⟩
  let seg : Nat := t.heap.length
  let body : Body α :=
    { kinematic := true, mass := none, position := ⟨0, 0⟩, angle := 0,
      angularVelocity := segmentRotation, UserData := none }
  let walls := (List.range segmentSides).foldl (setupSegment m seg) (space, ⟨1, 0⟩)
  { t with heap := t.heap ++ [body], seg := seg, space := walls.1.AddBody seg }

/-- The `k`-th of the equally spaced points on the unit circle: the point at
the angle `2πk / segmentSides` (the vertex the text of the specification
names, stated with the functions of the `math` package). -/
def polygonVertex (m : GoMath α) (k : Nat) : Vector α :=
  ⟨m.Cos (2 * m.Pi * (k : α) / (segmentSides : α)),
    m.Sin (2 * m.Pi * (k : α) / (segmentSides : α))⟩

/-- `newTombolaSeq`: the fields taken from the configuration, an empty note
map, and `setupPhysics`.  (The collision handler it registers is
`handleCollision`, which `Step` calls; the goroutine it starts is `run`.) -/
def newTombolaSeq (m : GoMath α) (mi : midiInterface) (cfg : config) : tombolaSeq α :=
  setupPhysics m
    { inChannel := cfg.inChannel, outChannel := cfg.outChannel, midi := mi,
      heap := [], space := NewSpace, seg := 0, notes := ∅, noteID := 0 }

/-- `addNote`: a new note with a new body (mass `ballMass`, `UserData` pointing
back to the note) and a circle shape of collision type `collNote`; body and
shape are registered in the space, the note is stored under `t.noteID`, and
`t.noteID` is incremented. -/
def addNote (pitch : Nat) (t : tombolaSeq α) : tombolaSeq α :=
  let ptr : Nat := t.heap.length
  let n : tombolaNote := { pitch := pitch, body := ptr }
  let body : Body α :=
    { kinematic := false, mass := some ballMass, position := ⟨0, 0⟩, angle := 0,
      angularVelocity := 0, UserData := some n }
  let shape : Shape α :=
    { body := ptr, cls := ShapeClass.Circle ballRadius ⟨0, 0⟩,
      elasticity := ballElasticity, collisionType := collNote }
  { t with
    heap := t.heap ++ [body]
    space := (t.space.AddBody ptr).AddShape shape
    notes := t.notes.insert t.noteID n
    noteID := t.noteID + 1 }

/-- `n.body.Position()`: the position of the body behind a pointer (the zero
vector for a pointer that was never allocated). -/
def Position (t : tombolaSeq α) (ptr : Nat) : Vector α :=
  match t.heap[ptr]? with
  | some b => b.position
  | none => ⟨0, 0⟩

/-- The test in `deleteDropouts`, with `max = 3.0`:
`pos.X > max || pos.X < -max || pos.Y > max || pos.Y < -max`. -/
def isDropout (pos : Vector α) : Bool :=
  decide (pos.X > 3) || decide (pos.X < -3) || decide (pos.Y > 3) || decide (pos.Y < -3)

/-- The body of the loop in `deleteDropouts` for the key `id`.  A key that is
no longer in the map is not produced by the iteration. -/
def deleteDropoutsStep (t : tombolaSeq α) (id : Int) : tombolaSeq α :=
  match t.notes.lookup id with
  | none => t
  | some n =>
    if isDropout (Position t n.body) then
      { t with notes := t.notes.erase id, space := t.space.RemoveBody n.body }
    else t

/-- `deleteDropouts`, where `order` is the order in which `range t.notes`
yields the keys. -/
def deleteDropouts (order : List Int) (t : tombolaSeq α) : tombolaSeq α :=
  order.foldl deleteDropoutsStep t

/-- The body that the sweep removes when it visits the key `id`, if any. -/
def dropAt (t : tombolaSeq α) (id : Int) : Option Nat :=
  (t.notes.lookup id).bind (fun n => if isDropout (Position t n.body) then some n.body else none)

/-- The entries that a sweep keeps: those whose body is not a dropout. -/
def keepNote (t : tombolaSeq α) (n : tombolaNote) : Bool :=
  !isDropout (Position t n.body)

/-- An order in which `range` may yield the keys of a map: every key once. -/
def IsRangeOrder (order : List Int) (notes : Finmap (fun _ : Int => tombolaNote)) : Prop :=
  order.Nodup ∧ ∀ k, k ∈ order ↔ k ∈ notes

/-- `processMIDI`: a packet with an error is fatal (`log.Fatalf`, result
`none`); a note-on on the input channel spawns a note with its pitch. -/
def processMIDI (lib : GoMidi) : List Packet → tombolaSeq α → Option (tombolaSeq α)
  | [], t => some t
  | pkt :: rest, t =>
    if pkt.Err.isSome then none
    else if lib.GetMessageType pkt = lib.MessageTypeNoteOn then
      if (noteInfo pkt.Data).1 = t.inChannel then
        processMIDI lib rest (addNote (noteInfo pkt.Data).2.1 t)
      else processMIDI lib rest t
    else processMIDI lib rest t

/-- What `handleCollision` reads from a `cp.Arbiter`: `IsFirstContact()`, the
two bodies of `Bodies()`, and `TotalImpulse().Length()`. -/
structure Arbiter (α : Type) where
  IsFirstContact : Bool
  bodyA : Nat
  bodyB : Nat
  TotalImpulseLength : α

/-- `handleCollision`: nothing unless this is a first contact; otherwise the
note is taken from the `UserData` of the first body (the type assertion
panics, result `none`, if there is none) and a note-on is sent. -/
def handleCollision (t : tombolaSeq α) (a : Arbiter α) : Option (tombolaSeq α) :=
  if !a.IsFirstContact then some t
  else
    match (t.heap[a.bodyA]?).bind Body.UserData with
    | none => none
    | some note =>
      some { t with midi := t.midi.sendNoteOn t.outChannel note.pitch
                              (velocity a.TotalImpulseLength) }

/-- The machine arithmetic and the physics engine during one step: `fl` rounds
the real result of an arithmetic operation to a `float64`; `move` is the new
position the solver gives every moving body; `contacts` are the collision
callbacks it runs. -/
structure Solver (α : Type) where
  fl : α → α
  move : Nat → Vector α
  contacts : List (Arbiter α)

/-- The effect of a step of length `dt` on one body: a body that is not
registered in the space is left alone, a kinematic body turns to the angle
`a + w * dt` computed in `float64` (`w` is the `float64` of its angular
velocity; product and sum are rounded), any other body moves where the solver
puts it. -/
def stepBody (dt : α) (sv : Solver α) (registered : List Nat) (ptr : Nat) (b : Body α) :
    Body α :=
  if ptr ∈ registered then
    if b.kinematic then
      { b with angle := sv.fl (b.angle + sv.fl (sv.fl b.angularVelocity * dt)) }
    else { b with position := sv.move ptr }
  else b

/-- The bodies of a heap after a step; `i` is the pointer of the first one. -/
def stepBodies (dt : α) (sv : Solver α) (registered : List Nat) :
    Nat → List (Body α) → List (Body α)
  | _, [] => []
  | i, b :: bs => stepBody dt sv registered i b :: stepBodies dt sv registered (i + 1) bs

/-- The collision callbacks of a step, in order. -/
def postSolve : List (Arbiter α) → tombolaSeq α → Option (tombolaSeq α)
  | [], t => some t
  | a :: rest, t =>
    match handleCollision t a with
    | none => none
    | some t' => postSolve rest t'

/-- `t.space.Step(dt)`: the bodies are advanced, then the collision callbacks
run. -/
def Step (dt : α) (sv : Solver α) (t : tombolaSeq α) : Option (tombolaSeq α) :=
  postSolve sv.contacts { t with heap := stepBodies dt sv t.space.bodies 0 t.heap }

/-- The two events of the `select` in `run`: a timer tick at time `now`
(nanoseconds), carrying what the solver decides in the step and the order in
which the sweep ranges over the notes, or a batch of MIDI packets. -/
inductive Event (α : Type) where
  | tick (now : Int) (sv : Solver α) (order : List Int)
  | packets (pkts : List Packet)

/-- The loop of `run` over a finite sequence of events.  The state of the loop
is the sequencer and `lastTime` (nanoseconds); `time.Second` is `10^9`, and
`float64(delta) / float64(time.Second)` rounds the conversion of `delta` and
the quotient. -/
def run (lib : GoMidi) : List (Event α) → tombolaSeq α × Int → Option (tombolaSeq α × Int)
  | [], s => some s
  | Event.tick now sv order :: rest, (t, lastTime) =>
    let delta : Int := now - lastTime
    match Step (sv.fl (sv.fl (delta : α) / 1000000000)) sv t with
    | none => none
    | some t' => run lib rest (deleteDropouts order t', now)
  | Event.packets pkts :: rest, (t, lastTime) =>
    match processMIDI lib pkts t with
    | none => none
    | some t' => run lib rest (t', lastTime)

/-- The calls that change a sequencer after its construction. -/
inductive Op (α : Type) where
  | addNote (pitch : Nat)
  | deleteDropouts (order : List Int)
  | Step (dt : α) (sv : Solver α)
  | processMIDI (lib : GoMidi) (pkts : List Packet)

/-- The effect of one call; `none` when the process does not survive it. -/
def applyOp : Op α → tombolaSeq α → Option (tombolaSeq α)
  | Op.addNote pitch, t => some (addNote pitch t)
  | Op.deleteDropouts order, t => some (deleteDropouts order t)
  | Op.Step dt sv, t => Step dt sv t
  | Op.processMIDI lib pkts, t => processMIDI lib pkts t

/-- A sequence of calls, one after the other. -/
def runOps : List (Op α) → tombolaSeq α → Option (tombolaSeq α)
  | [], t => some t
  | op :: rest, t =>
    match applyOp op t with
    | none => none
    | some t' => runOps rest t'

/-- The states a sequencer can be in: those that a sequence of calls produces
from a newly constructed sequencer (with any solver decisions in the steps and
with the sweeps ranging over any list of keys). -/
def Reachable (t : tombolaSeq α) : Prop :=
  ∃ (m : GoMath α) (mi : midiInterface) (cfg : config) (ops : List (Op α)),
    runOps ops (newTombolaSeq m mi cfg) = some t

/-- The ids under which `processMIDI` stores notes: the value of `t.noteID` at
each of its calls of `addNote`, in order. -/
def processMIDIIds (lib : GoMidi) : List Packet → tombolaSeq α → List Int
  | [], _ => []
  | pkt :: rest, t =>
    if pkt.Err.isSome then []
    else if lib.GetMessageType pkt = lib.MessageTypeNoteOn then
      if (noteInfo pkt.Data).1 = t.inChannel then
        t.noteID :: processMIDIIds lib rest (addNote (noteInfo pkt.Data).2.1 t)
      else processMIDIIds lib rest t
    else processMIDIIds lib rest t

/-- The ids under which the calls of `addNote` in a sequence of calls store
their notes: the value of `t.noteID` at each call, in order. -/
def spawnIds : List (Op α) → tombolaSeq α → List Int
  | [], _ => []
  | Op.addNote pitch :: rest, t => t.noteID :: spawnIds rest (addNote pitch t)
  | Op.deleteDropouts order :: rest, t => spawnIds rest (deleteDropouts order t)
  | Op.Step dt sv :: rest, t =>
    match Step dt sv t with
    | none => []
    | some t' => spawnIds rest t'
  | Op.processMIDI lib pkts :: rest, t =>
    processMIDIIds lib pkts t ++
      match processMIDI lib pkts t with
      | none => []
      | some t' => spawnIds rest t'

/-- The tick intervals `delta` of `run` over a sequence of events, in
nanoseconds. -/
def stepDeltas : List (Event α) → Int → List Int
  | [], _ => []
  | Event.tick now _ _ :: rest, lastTime => (now - lastTime) :: stepDeltas rest now
  | Event.packets _ :: rest, lastTime => stepDeltas rest lastTime

/-- The step sizes that `run` passes to `Step` over a sequence of events, in
seconds. -/
def stepSizes : List (Event α) → Int → List α
  | [], _ => []
  | Event.tick now sv _ :: rest, lastTime =>
    sv.fl (sv.fl ((now - lastTime : Int) : α) / 1000000000) :: stepSizes rest now
  | Event.packets _ :: rest, lastTime => stepSizes rest lastTime

/-- Exact arithmetic in every tick of a sequence of events: no result is
changed by rounding. -/
def ExactTicks : List (Event α) → Prop
  | [] => True
  | Event.tick _ sv _ :: rest => (∀ x, sv.fl x = x) ∧ ExactTicks rest
  | Event.packets _ :: rest => ExactTicks rest

/-- The angle of the container body, `t.seg.Angle()`. -/
def segAngle (t : tombolaSeq α) : α :=
  match t.heap[t.seg]? with
  | some b => b.angle
  | none => 0

/-- What holds of every state a sequencer can be in: the container body is
allocated, kinematic, turning at `segmentRotation` and registered; every key
of the note map is below `noteID`; the body of every note is allocated and is
not the container; and every body other than the container is the body of the
note in its `UserData`. -/
structure Inv (t : tombolaSeq α) : Prop where
  seg_lt : t.seg < t.heap.length
  seg_body : ∀ b, t.heap[t.seg]? = some b →
    b.kinematic = true ∧ b.angularVelocity = segmentRotation
  seg_reg : t.seg ∈ t.space.bodies
  ids : ∀ k, k ∈ t.notes → k < t.noteID
  noteBody : ∀ k n, t.notes.lookup k = some n → n.body < t.heap.length ∧ n.body ≠ t.seg
  user : ∀ i b, t.heap[i]? = some b → i ≠ t.seg →
    b.kinematic = false ∧ ∃ n, b.UserData = some n ∧ n.body = i

/-- A rational stand-in for the `math` package (truncated power series), on
which the definitions can be run. -/
def ratMath : GoMath ℚ :=
  { Pi := 355 / 113,
    Cos := fun x => 1 - x ^ 2 / 2 + x ^ 4 / 24,
    Sin := fun x => x - x ^ 3 / 6 + x ^ 5 / 120 }

/-- The time of the last tick of a sequence of events (`lastTime` if there is
none). -/
def lastTick : List (Event α) → Int → Int
  | [], lastTime => lastTime
  | Event.tick now _ _ :: rest, _ => lastTick rest now
  | Event.packets _ :: rest, lastTime => lastTick rest lastTime

/-- The pitches of the packets of a batch that are note-ons on the channel
`ch`, in the order of the batch. -/
def noteOnPitches (lib : GoMidi) (ch : Nat) (pkts : List Packet) : List Nat :=
  (pkts.filter (fun pkt =>
    decide (lib.GetMessageType pkt = lib.MessageTypeNoteOn) &&
      decide ((noteInfo pkt.Data).1 = ch))).map (fun pkt => pkt.Data.2.1)

/-- A decoder for running the definitions: a packet is a note-on when the
high nibble of its status byte is `0x9`. -/
def exampleMidi : GoMidi :=
  { GetMessageType := fun pkt => if pkt.Data.1 / 16 = 9 then 3 else 0,
    MessageTypeNoteOn := 3 }

/-- A new sequencer on the rationals (channels 1 and 2 configured). -/
def exampleNew : tombolaSeq ℚ :=
  newTombolaSeq ratMath ⟨[]⟩ (parseFlags 1 2 "")

/-- The example step, in exact arithmetic: the ball behind pointer 1 ends at
`(4, 0)`, every other ball at `(0, 1/2)`, and no callback runs. -/
def exampleSolver : Solver ℚ :=
  { fl := fun x => x, move := fun p => if p = 1 then ⟨4, 0⟩ else ⟨0, 1 / 2⟩, contacts := [] }

/-- The calls of the example: two notes are spawned, then the engine steps. -/
def exampleOps : List (Op ℚ) :=
  [Op.addNote 60, Op.addNote 61, Op.Step (1 / 100) exampleSolver]

/-- The sequencer after the calls of the example: note 0 (pitch 60, body 1) is
at `(4, 0)`, note 1 (pitch 61, body 2) at `(0, 1/2)`. -/
def exampleMoved : tombolaSeq ℚ :=
  { addNote 61 (addNote 60 exampleNew) with
    heap := stepBodies (1 / 100) exampleSolver (addNote 61 (addNote 60 exampleNew)).space.bodies 0
      (addNote 61 (addNote 60 exampleNew)).heap }

/-- The events of the example run, in exact arithmetic: a batch with two
note-ons on channel 1 (and one on channel 2), a tick at 10 ms in which the
first ball hits a wall, and a tick at 25 ms in which it has left the playing
area. -/
def exampleEvents : List (Event ℚ) :=
  [Event.packets [⟨(0x90, 60, 100), none⟩, ⟨(0x91, 72, 100), none⟩, ⟨(0x90, 61, 100), none⟩],
    Event.tick 10000000
      { fl := fun x => x, move := fun _ => ⟨0, 1 / 2⟩,
        contacts := [⟨true, 1, 0, 1 / 20⟩, ⟨false, 2, 0, 1⟩] } [1, 0],
    Event.tick 25000000 exampleSolver [0, 1]]

/-- The state of the loop after the events of the example (the state before
them if the process did not survive). -/
def exampleRun : tombolaSeq ℚ × Int :=
  (run exampleMidi exampleEvents (exampleNew, 0)).getD (exampleNew, 0)

/-- A step in `float64` arithmetic in which no ball moves and no callback
runs. -/
def floatSolver : Solver ℚ :=
  { fl := float64, move := fun _ => ⟨0, 0⟩, contacts := [] }

/-- The ticks at `start + period`, `start + 2 * period`, ... (`n` of them), in
`float64` arithmetic, each with an empty sweep order. -/
def floatTicks : Nat → Int → Int → List (Event ℚ)
  | 0, _, _ => []
  | n + 1, period, start =>
    Event.tick (start + period) floatSolver [] :: floatTicks n period (start + period)

end Operations

/-! ## Lemmas: numeric conversions -/

section VelocityLemmas

variable {α : Type} [LinearOrderedField α]

theorem uint8_of_lt (i : Int) (h0 : 0 ≤ i) (h1 : i < 256) : (uint8 i : Int) = i := by
  unfold uint8
  omega

theorem velocityArg_lower (x : α) (hx : 0 ≤ x) : (60 : α) ≤ velocityArg x := by
  unfold velocityArg
  have h : (0 : α) ≤ min 1 (x * 10) := le_min zero_le_one (by positivity)
  linarith

theorem velocityArg_upper (x : α) : velocityArg x ≤ (120 : α) := by
  unfold velocityArg
  have h : min 1 (x * 10) ≤ (1 : α) := min_le_left _ _
  linarith

theorem velocityArg_mono (x y : α) (hxy : x ≤ y) : velocityArg x ≤ velocityArg y := by
  unfold velocityArg
  have h : min 1 (x * 10) ≤ min 1 (y * 10) := min_le_min le_rfl (by linarith)
  linarith

variable [FloorRing α]

theorem truncate_of_nonneg (q : α) (h : 0 ≤ q) : truncate q = ⌊q⌋ := by
  simp [truncate, h]

theorem velocity_eq_floor (x : α) (hx : 0 ≤ x) :
    (velocity x : Int) = ⌊velocityArg x⌋ ∧ 60 ≤ ⌊velocityArg x⌋ ∧ ⌊velocityArg x⌋ ≤ 120 := by
  have hl := velocityArg_lower x hx
  have hu := velocityArg_upper x
  have h60 : (60 : Int) ≤ ⌊velocityArg x⌋ := Int.le_floor.mpr (by exact_mod_cast hl)
  have h120 : ⌊velocityArg x⌋ ≤ (120 : Int) := by
    have := Int.floor_mono hu
    have h2 : ⌊(120 : α)⌋ = 120 := by
      have := Int.floor_intCast (α := α) 120
      simp
    omega
  refine ⟨?_, h60, h120⟩
  have ht : truncate (velocityArg x) = ⌊velocityArg x⌋ :=
    truncate_of_nonneg _ (by linarith)
  show (uint8 (truncate (velocityArg x)) : Int) = _
  rw [ht]
  exact uint8_of_lt _ (by omega) (by omega)

theorem velocity_of_clamped (x : α) (h : 1 ≤ x * 10) : velocity x = 120 := by
  have hm : min 1 (x * 10) = (1 : α) := min_eq_left h
  have h0 : (0 : α) ≤ 60 + 60 * 1 := by norm_num
  have hf : ⌊(60 + 60 * 1 : α)⌋ = 120 := by
    have h1 : (60 + 60 * 1 : α) = ((120 : Int) : α) := by norm_num
    rw [h1, Int.floor_intCast]
  unfold velocity velocityArg
  rw [hm, truncate_of_nonneg _ h0, hf]
  rfl

theorem velocity_zero : velocity (0 : α) = 60 := by
  have h0 : (0 : α) ≤ 60 := by norm_num
  have hf : ⌊(60 : α)⌋ = 60 := by
    have h1 : (60 : α) = ((60 : Int) : α) := by norm_num
    rw [h1, Int.floor_intCast]
  unfold velocity velocityArg
  have hm : min (1 : α) (0 * 10) = 0 := by
    rw [zero_mul]; exact min_eq_right zero_le_one
  rw [hm, mul_zero, add_zero, truncate_of_nonneg _ h0, hf]
  rfl

end VelocityLemmas

/-! ## Lemmas: rounding to `float64` -/

/-- The rounding agrees with the `float64` values of `0.6`
(`0x1.3333333333333p-1`), `0.001` (`0x1.0624dd2f1a9fcp-10`), `0.1` and `-1/3`,
and leaves 12 and 0 as they are. -/
theorem float64_values :
    float64 (6 / 10) = 5404319552844595 / 9007199254740992 ∧
      float64 (1 / 1000) = 1152921504606847 / 1152921504606846976 ∧
      float64 (1 / 10) = 3602879701896397 / 36028797018963968 ∧
      float64 (-1 / 3) = -6004799503160661 / 18014398509481984 ∧
      float64 12 = 12 ∧ float64 0 = 0 := by
  decide!

/-! ## Lemmas: the container -/

theorem setupPhysics_shapes {α : Type} [LinearOrderedField α] [FloorRing α] (m : GoMath α)
    (t : tombolaSeq α) :
    (setupPhysics m t).space.shapes =
      (List.range 6).map (fun (i : Nat) =>
        ({ body := t.heap.length,
           cls := ShapeClass.Segment
             (if i = 0 then ⟨1, 0⟩
              else ⟨m.Cos (2 * m.Pi / 6 * (i : α)), m.Sin (2 * m.Pi / 6 * (i : α))⟩)
             ⟨m.Cos (2 * m.Pi / 6 * ((i : α) + 1)), m.Sin (2 * m.Pi / 6 * ((i : α) + 1))⟩
             (1 / 100),
           elasticity := segmentElasticity, collisionType := collSegment } : Shape α)) := by
  simp [setupPhysics, setupSegment, segmentSides, List.range_succ, Space.AddShape, Space.AddBody,
    NewSpace, Space.SetGravity]
  norm_num

theorem chord_sq (a b : ℝ) (h : b - a = Real.pi / 3) :
    (Real.cos b - Real.cos a) ^ 2 + (Real.sin b - Real.sin a) ^ 2 = 1 := by
  have h1 : Real.cos (b - a) = 1 / 2 := by rw [h, Real.cos_pi_div_three]
  rw [Real.cos_sub] at h1
  nlinarith [Real.cos_sq_add_sin_sq a, Real.cos_sq_add_sin_sq b]

/-! ## Lemmas: the sweep -/

section SweepLemmas

variable {α : Type} [LinearOrderedField α]

theorem deleteDropoutsStep_eq (t : tombolaSeq α) (id : Int) :
    deleteDropoutsStep t id =
      match dropAt t id with
      | none => t
      | some b => { t with notes := t.notes.erase id, space := t.space.RemoveBody b } := by
  unfold deleteDropoutsStep dropAt
  cases h : t.notes.lookup id with
  | none => simp
  | some n =>
    by_cases hd : isDropout (Position t n.body) = true
    · simp [hd]
    · simp [hd]

theorem Position_of_heap (t s : tombolaSeq α) (h : s.heap = t.heap) (p : Nat) :
    Position s p = Position t p := by
  unfold Position
  rw [h]

theorem deleteDropoutsStep_heap (t : tombolaSeq α) (id : Int) :
    (deleteDropoutsStep t id).heap = t.heap := by
  rw [deleteDropoutsStep_eq]
  cases dropAt t id <;> rfl

theorem dropAt_erase_ne (t : tombolaSeq α) (a b : Int) (sp : Space α) (hab : b ≠ a) :
    dropAt { t with notes := t.notes.erase a, space := sp } b = dropAt t b := by
  unfold dropAt
  simp only [Finmap.lookup_erase_ne hab]
  rfl

theorem deleteDropoutsStep_comm (t : tombolaSeq α) (a b : Int) :
    deleteDropoutsStep (deleteDropoutsStep t a) b =
      deleteDropoutsStep (deleteDropoutsStep t b) a := by
  by_cases hab : a = b
  · rw [hab]
  have hba : b ≠ a := fun h => hab h.symm
  rw [deleteDropoutsStep_eq t a, deleteDropoutsStep_eq t b]
  cases ha : dropAt t a with
  | none =>
    cases hb : dropAt t b with
    | none => simp only [deleteDropoutsStep_eq, ha, hb]
    | some y =>
      simp only [deleteDropoutsStep_eq, hb]
      rw [dropAt_erase_ne t b a _ hab, ha]
  | some x =>
    cases hb : dropAt t b with
    | none =>
      simp only [deleteDropoutsStep_eq, ha]
      rw [dropAt_erase_ne t a b _ hba, hb]
    | some y =>
      simp only [deleteDropoutsStep_eq]
      rw [dropAt_erase_ne t a b _ hba, hb, dropAt_erase_ne t b a _ hab, ha]
      simp only [Space.RemoveBody]
      rw [Finmap.erase_erase, List.erase_comm]

theorem deleteDropoutsStep_lookup (t : tombolaSeq α) (id k : Int) :
    (deleteDropoutsStep t id).notes.lookup k =
      if k = id then (t.notes.lookup k).filter (keepNote t) else t.notes.lookup k := by
  unfold deleteDropoutsStep
  by_cases hk : k = id
  · subst hk
    simp only [if_true]
    cases h : t.notes.lookup k with
    | none => simp [h]
    | some n =>
      by_cases hd : isDropout (Position t n.body) = true
      · simp [hd, keepNote, Option.filter, Finmap.lookup_erase]
      · simp [hd, keepNote, Option.filter, h]
  · simp only [hk, if_false]
    cases h : t.notes.lookup id with
    | none => simp
    | some n =>
      by_cases hd : isDropout (Position t n.body) = true
      · simp [hd, Finmap.lookup_erase_ne hk]
      · simp [hd]

theorem keepNote_of_heap (t s : tombolaSeq α) (h : s.heap = t.heap) : keepNote s = keepNote t := by
  funext n
  simp [keepNote, Position_of_heap t s h]

theorem deleteDropouts_nil (t : tombolaSeq α) : deleteDropouts [] t = t := rfl

theorem deleteDropouts_cons (id : Int) (order : List Int) (t : tombolaSeq α) :
    deleteDropouts (id :: order) t = deleteDropouts order (deleteDropoutsStep t id) := rfl

theorem deleteDropouts_heap (order : List Int) (t : tombolaSeq α) :
    (deleteDropouts order t).heap = t.heap := by
  induction order generalizing t with
  | nil => rfl
  | cons id rest ih => rw [deleteDropouts_cons, ih, deleteDropoutsStep_heap]

theorem option_filter_filter {β : Type} (p : β → Bool) (o : Option β) :
    (o.filter p).filter p = o.filter p := by
  cases o with
  | none => rfl
  | some x =>
    by_cases hx : p x = true
    · simp [Option.filter, hx]
    · simp [Option.filter, hx]

theorem deleteDropouts_lookup (order : List Int) (t : tombolaSeq α) (k : Int) :
    (deleteDropouts order t).notes.lookup k =
      if k ∈ order then (t.notes.lookup k).filter (keepNote t) else t.notes.lookup k := by
  induction order generalizing t with
  | nil => simp [deleteDropouts_nil]
  | cons id rest ih =>
    rw [deleteDropouts_cons, ih, keepNote_of_heap t _ (deleteDropoutsStep_heap t id),
      deleteDropoutsStep_lookup]
    by_cases hk : k = id
    · subst hk
      simp [option_filter_filter]
    · simp [hk]

theorem deleteDropoutsStep_frame (t : tombolaSeq α) (id : Int) :
    (deleteDropoutsStep t id).noteID = t.noteID ∧
      (deleteDropoutsStep t id).midi = t.midi ∧
      (deleteDropoutsStep t id).inChannel = t.inChannel ∧
      (deleteDropoutsStep t id).outChannel = t.outChannel ∧
      (deleteDropoutsStep t id).seg = t.seg ∧
      (deleteDropoutsStep t id).space.shapes = t.space.shapes ∧
      (deleteDropoutsStep t id).space.gravity = t.space.gravity := by
  rw [deleteDropoutsStep_eq]
  cases dropAt t id <;> simp [Space.RemoveBody]

theorem deleteDropouts_frame (order : List Int) (t : tombolaSeq α) :
    (deleteDropouts order t).noteID = t.noteID ∧
      (deleteDropouts order t).midi = t.midi ∧
      (deleteDropouts order t).inChannel = t.inChannel ∧
      (deleteDropouts order t).outChannel = t.outChannel ∧
      (deleteDropouts order t).seg = t.seg ∧
      (deleteDropouts order t).space.shapes = t.space.shapes ∧
      (deleteDropouts order t).space.gravity = t.space.gravity := by
  induction order generalizing t with
  | nil => simp [deleteDropouts_nil]
  | cons id rest ih =>
    rw [deleteDropouts_cons]
    obtain ⟨h1, h2, h3, h4, h5, h6, h7⟩ := ih (deleteDropoutsStep t id)
    obtain ⟨g1, g2, g3, g4, g5, g6, g7⟩ := deleteDropoutsStep_frame t id
    exact ⟨h1.trans g1, h2.trans g2, h3.trans g3, h4.trans g4, h5.trans g5, h6.trans g6,
      h7.trans g7⟩

theorem deleteDropouts_perm (o1 o2 : List Int) (h : o1.Perm o2) (t : tombolaSeq α) :
    deleteDropouts o1 t = deleteDropouts o2 t := by
  unfold deleteDropouts
  exact List.Perm.foldl_eq' h (fun x _ y _ z => deleteDropoutsStep_comm z x y) t

theorem isDropout_eq_false_iff (pos : Vector α) :
    isDropout pos = false ↔ (-3 ≤ pos.X ∧ pos.X ≤ 3) ∧ (-3 ≤ pos.Y ∧ pos.Y ≤ 3) := by
  simp only [isDropout, Bool.or_eq_false_iff, decide_eq_false_iff_not, not_lt, gt_iff_lt]
  tauto

theorem isDropout_of_unit_disc (pos : Vector α) (h : pos.X ^ 2 + pos.Y ^ 2 ≤ 1) :
    isDropout pos = false := by
  rw [isDropout_eq_false_iff]
  refine ⟨⟨?_, ?_⟩, ⟨?_, ?_⟩⟩ <;> nlinarith [sq_nonneg pos.X, sq_nonneg pos.Y]

end SweepLemmas

/-! ## Lemmas: steps, callbacks and spawning -/

section StateLemmas

variable {α : Type} [LinearOrderedField α]

theorem stepBodies_length (dt : α) (sv : Solver α) (reg : List Nat) (i : Nat)
    (heap : List (Body α)) : (stepBodies dt sv reg i heap).length = heap.length := by
  induction heap generalizing i with
  | nil => rfl
  | cons b bs ih => simp [stepBodies, ih]

theorem stepBodies_getElem? (dt : α) (sv : Solver α) (reg : List Nat) (i j : Nat)
    (heap : List (Body α)) :
    (stepBodies dt sv reg i heap)[j]? = (heap[j]?).map (stepBody dt sv reg (i + j)) := by
  induction heap generalizing i j with
  | nil => simp [stepBodies]
  | cons b bs ih =>
    cases j with
    | zero => simp [stepBodies]
    | succ j =>
      simp only [stepBodies, List.getElem?_cons_succ]
      rw [ih]
      have e : i + 1 + j = i + (j + 1) := by omega
      rw [e]

theorem stepBody_fields (dt : α) (sv : Solver α) (reg : List Nat) (i : Nat) (b : Body α) :
    (stepBody dt sv reg i b).kinematic = b.kinematic ∧
      (stepBody dt sv reg i b).angularVelocity = b.angularVelocity ∧
      (stepBody dt sv reg i b).UserData = b.UserData ∧
      (stepBody dt sv reg i b).mass = b.mass := by
  unfold stepBody
  split_ifs <;> simp

theorem stepBody_angle (dt : α) (sv : Solver α) (reg : List Nat) (i : Nat) (b : Body α)
    (hreg : i ∈ reg) (hk : b.kinematic = true) :
    (stepBody dt sv reg i b).angle =
      sv.fl (b.angle + sv.fl (sv.fl b.angularVelocity * dt)) := by
  simp [stepBody, hreg, hk]

theorem Inv_newTombolaSeq (m : GoMath α) (mi : midiInterface) (cfg : config) :
    Inv (newTombolaSeq m mi cfg) := by
  have hb : (newTombolaSeq m mi cfg).space.bodies = [0] := by
    simp [newTombolaSeq, setupPhysics, setupSegment, segmentSides, List.range_succ,
      Space.AddShape, Space.AddBody, NewSpace, Space.SetGravity]
  have hh : (newTombolaSeq m mi cfg).heap =
      [{ kinematic := true, mass := none, position := ⟨0, 0⟩, angle := 0,
         angularVelocity := segmentRotation, UserData := none }] := by
    simp [newTombolaSeq, setupPhysics]
  have hs : (newTombolaSeq m mi cfg).seg = 0 := rfl
  have hn : (newTombolaSeq m mi cfg).notes = ∅ := rfl
  constructor
  · rw [hs, hh]; simp
  · intro b hb0
    rw [hs, hh] at hb0
    simp only [List.getElem?_cons_zero, Option.some.injEq] at hb0
    subst hb0
    simp
  · rw [hs, hb]; simp
  · intro k hk
    rw [hn] at hk
    exact absurd hk (Finmap.not_mem_empty)
  · intro k n hk
    rw [hn, Finmap.lookup_empty] at hk
    cases hk
  · intro i b hi hne
    rw [hh] at hi
    rw [hs] at hne
    cases i with
    | zero => exact absurd rfl hne
    | succ i => simp at hi

theorem Inv_addNote (p : Nat) (t : tombolaSeq α) (h : Inv t) : Inv (addNote p t) := by
  obtain ⟨h1, h2, h3, h4, h5, h6⟩ := h
  constructor
  · show t.seg < (t.heap ++ [_]).length
    simp only [List.length_append, List.length_singleton]
    omega
  · intro b hb
    have : (t.heap ++ [_])[t.seg]? = some b := hb
    rw [List.getElem?_append_left h1] at this
    exact h2 b this
  · show t.seg ∈ t.space.bodies ++ [t.heap.length]
    exact List.mem_append_left _ h3
  · intro k hk
    have hk2 : k ∈ t.notes.insert t.noteID ⟨p, t.heap.length⟩ := hk
    rw [Finmap.mem_insert] at hk2
    show k < t.noteID + 1
    rcases hk2 with hk2 | hk2
    · omega
    · have := h4 k hk2
      omega
  · intro k n hk
    have hk2 : (t.notes.insert t.noteID ⟨p, t.heap.length⟩).lookup k = some n := hk
    show n.body < (t.heap ++ [_]).length ∧ n.body ≠ t.seg
    simp only [List.length_append, List.length_singleton]
    by_cases hkid : k = t.noteID
    · subst hkid
      rw [Finmap.lookup_insert] at hk2
      cases hk2
      exact ⟨by simp, by simp only [ne_eq]; omega⟩
    · rw [Finmap.lookup_insert_of_ne _ hkid] at hk2
      obtain ⟨ha, hb⟩ := h5 k n hk2
      exact ⟨by omega, hb⟩
  · intro i b hi hne
    have hi2 : (t.heap ++ [_])[i]? = some b := hi
    have hne2 : i ≠ t.seg := hne
    by_cases hlt : i < t.heap.length
    · rw [List.getElem?_append_left hlt] at hi2
      exact h6 i b hi2 hne2
    · have hlen : i < (t.heap ++ [(⟨false, some ballMass, ⟨0, 0⟩, 0, 0,
          some ⟨p, t.heap.length⟩⟩ : Body α)]).length := by
        by_contra hcon
        rw [List.getElem?_eq_none (by omega)] at hi2
        cases hi2
      simp only [List.length_append, List.length_singleton] at hlen
      have hieq : i = t.heap.length := by omega
      subst hieq
      rw [List.getElem?_concat_length] at hi2
      cases hi2
      exact ⟨rfl, ⟨p, t.heap.length⟩, rfl, rfl⟩

theorem dropAt_some (t : tombolaSeq α) (id : Int) (b : Nat) (h : dropAt t id = some b) :
    ∃ n, t.notes.lookup id = some n ∧ n.body = b := by
  unfold dropAt at h
  cases hl : t.notes.lookup id with
  | none => simp [hl] at h
  | some n =>
    refine ⟨n, rfl, ?_⟩
    simp only [hl, Option.some_bind] at h
    split_ifs at h
    cases h
    rfl

theorem Inv_deleteDropoutsStep (t : tombolaSeq α) (id : Int) (h : Inv t) :
    Inv (deleteDropoutsStep t id) := by
  rw [deleteDropoutsStep_eq]
  cases hd : dropAt t id with
  | none => exact h
  | some b =>
    obtain ⟨n, hn, hnb⟩ := dropAt_some t id b hd
    obtain ⟨h1, h2, h3, h4, h5, h6⟩ := h
    have hbseg : b ≠ t.seg := hnb ▸ (h5 id n hn).2
    constructor
    · exact h1
    · exact h2
    · show t.seg ∈ t.space.bodies.erase b
      exact (List.mem_erase_of_ne (Ne.symm hbseg)).mpr h3
    · intro k hk
      have hk2 : k ∈ t.notes.erase id := hk
      rw [Finmap.mem_erase] at hk2
      exact h4 k hk2.2
    · intro k m hk
      have hk2 : (t.notes.erase id).lookup k = some m := hk
      by_cases hkid : k = id
      · subst hkid
        rw [Finmap.lookup_erase] at hk2
        cases hk2
      · rw [Finmap.lookup_erase_ne hkid] at hk2
        exact h5 k m hk2
    · exact h6

theorem Inv_deleteDropouts (order : List Int) (t : tombolaSeq α) (h : Inv t) :
    Inv (deleteDropouts order t) := by
  induction order generalizing t with
  | nil => exact h
  | cons id rest ih =>
    rw [deleteDropouts_cons]
    exact ih _ (Inv_deleteDropoutsStep t id h)

theorem Inv_of_heap_step (dt : α) (sv : Solver α) (t t' : tombolaSeq α) (h : Inv t)
    (hh : t'.heap = stepBodies dt sv t.space.bodies 0 t.heap) (hs : t'.space = t.space)
    (hn : t'.notes = t.notes) (hi : t'.noteID = t.noteID) (hg : t'.seg = t.seg) : Inv t' := by
  obtain ⟨h1, h2, h3, h4, h5, h6⟩ := h
  have hget : ∀ i b, t'.heap[i]? = some b →
      ∃ b0, t.heap[i]? = some b0 ∧ b = stepBody dt sv t.space.bodies i b0 := by
    intro i b hb
    rw [hh, stepBodies_getElem?] at hb
    cases hb0 : t.heap[i]? with
    | none => simp [hb0] at hb
    | some b0 =>
      simp only [hb0, Option.map_some', Option.some.injEq, zero_add] at hb
      exact ⟨b0, rfl, hb.symm⟩
  constructor
  · rw [hg, hh, stepBodies_length]; exact h1
  · intro b hb
    rw [hg] at hb
    obtain ⟨b0, hb0, rfl⟩ := hget _ b hb
    obtain ⟨f1, f2, _, _⟩ := stepBody_fields dt sv t.space.bodies t.seg b0
    rw [f1, f2]
    exact h2 b0 hb0
  · rw [hg, hs]; exact h3
  · intro k hk
    rw [hn] at hk
    rw [hi]
    exact h4 k hk
  · intro k n hk
    rw [hn] at hk
    rw [hg, hh, stepBodies_length]
    exact h5 k n hk
  · intro i b hb hne
    rw [hg] at hne
    obtain ⟨b0, hb0, rfl⟩ := hget _ b hb
    obtain ⟨f1, _, f3, _⟩ := stepBody_fields dt sv t.space.bodies i b0
    rw [f1, f3]
    exact h6 i b0 hb0 hne

theorem Inv_processMIDI (lib : GoMidi) (pkts : List Packet) (t t' : tombolaSeq α) (h : Inv t)
    (hp : processMIDI lib pkts t = some t') : Inv t' := by
  induction pkts generalizing t with
  | nil =>
    simp only [processMIDI, Option.some.injEq] at hp
    subst hp
    exact h
  | cons pkt rest ih =>
    simp only [processMIDI] at hp
    split_ifs at hp with h1 h2 h3
    · exact ih _ (Inv_addNote _ t h) hp
    · exact ih _ h hp
    · exact ih _ h hp

theorem keys_insert (m : Finmap (fun _ : Int => tombolaNote)) (k : Int) (n : tombolaNote) :
    (m.insert k n).keys = insert k m.keys := by
  ext x
  rw [Finmap.mem_keys, Finmap.mem_insert, Finset.mem_insert, Finmap.mem_keys]

theorem addNote_card (p : Nat) (t : tombolaSeq α) (h : t.noteID ∉ t.notes) :
    (addNote p t).notes.keys.card = t.notes.keys.card + 1 := by
  show (t.notes.insert t.noteID _).keys.card = _
  rw [keys_insert, Finset.card_insert_of_not_mem]
  rw [Finmap.mem_keys]
  exact h

theorem addNote_lookup (p : Nat) (t : tombolaSeq α) (k : Int) :
    (addNote p t).notes.lookup k =
      if k = t.noteID then some ⟨p, t.heap.length⟩ else t.notes.lookup k := by
  show (t.notes.insert t.noteID _).lookup k = _
  by_cases hk : k = t.noteID
  · subst hk
    simp [Finmap.lookup_insert]
  · simp [hk, Finmap.lookup_insert_of_ne _ hk]

theorem processMIDI_noteID (lib : GoMidi) (pkts : List Packet) (t t' : tombolaSeq α)
    (hp : processMIDI lib pkts t = some t') : t.noteID ≤ t'.noteID := by
  induction pkts generalizing t with
  | nil =>
    simp only [processMIDI, Option.some.injEq] at hp
    subst hp
    exact le_rfl
  | cons pkt rest ih =>
    simp only [processMIDI] at hp
    split_ifs at hp with h1 h2 h3
    · have := ih _ hp
      have e : (addNote (noteInfo pkt.Data).2.1 t).noteID = t.noteID + 1 := rfl
      omega
    · exact ih _ hp
    · exact ih _ hp

theorem processMIDIIds_bounds (lib : GoMidi) (pkts : List Packet) (t : tombolaSeq α) :
    (processMIDIIds lib pkts t).Sorted (· < ·) ∧
      (∀ id ∈ processMIDIIds lib pkts t, t.noteID ≤ id) ∧
      (∀ t', processMIDI lib pkts t = some t' →
        ∀ id ∈ processMIDIIds lib pkts t, id < t'.noteID) := by
  induction pkts generalizing t with
  | nil => simp [processMIDIIds]
  | cons pkt rest ih =>
    simp only [processMIDIIds, processMIDI]
    split_ifs with h1 h2 h3
    · simp
    · obtain ⟨i1, i2, i3⟩ := ih (addNote (noteInfo pkt.Data).2.1 t)
      have e : (addNote (noteInfo pkt.Data).2.1 t).noteID = t.noteID + 1 := rfl
      refine ⟨?_, ?_, ?_⟩
      · rw [List.Sorted, List.pairwise_cons]
        refine ⟨fun id hid => ?_, i1⟩
        have := i2 id hid
        omega
      · intro id hid
        rw [List.mem_cons] at hid
        rcases hid with hid | hid
        · omega
        · have := i2 id hid
          omega
      · intro t' ht' id hid
        rw [List.mem_cons] at hid
        rcases hid with hid | hid
        · have := processMIDI_noteID lib rest _ t' ht'
          omega
        · exact i3 t' ht' id hid
    · exact ih t
    · exact ih t

theorem processMIDI_eq_foldl (lib : GoMidi) (pkts : List Packet) (t : tombolaSeq α)
    (h : ∀ pkt ∈ pkts, pkt.Err = none) :
    processMIDI lib pkts t =
      some ((noteOnPitches lib t.inChannel pkts).foldl (fun s p => addNote p s) t) := by
  induction pkts generalizing t with
  | nil => rfl
  | cons pkt rest ih =>
    have he : pkt.Err = none := h pkt (List.mem_cons_self _ _)
    have hr : ∀ q ∈ rest, q.Err = none := fun q hq => h q (List.mem_cons_of_mem _ hq)
    simp only [processMIDI, he, Option.isSome_none, Bool.false_eq_true, if_false]
    by_cases h1 : lib.GetMessageType pkt = lib.MessageTypeNoteOn
    · by_cases h2 : (noteInfo pkt.Data).1 = t.inChannel
      · rw [if_pos h1, if_pos h2, ih _ hr]
        have hin : (addNote (noteInfo pkt.Data).2.1 t).inChannel = t.inChannel := rfl
        rw [hin]
        have h2n : pkt.Data.1 &&& 15 = t.inChannel := h2
        simp [noteOnPitches, List.filter_cons, h1, h2n, noteInfo]
      · rw [if_pos h1, if_neg h2, ih _ hr]
        have h2n : ¬ pkt.Data.1 &&& 15 = t.inChannel := h2
        simp [noteOnPitches, List.filter_cons, h1, h2n, noteInfo]
    · rw [if_neg h1, ih _ hr]
      simp [noteOnPitches, List.filter_cons, h1]

theorem foldl_addNote_spec (ps : List Nat) (t : tombolaSeq α) :
    (ps.foldl (fun s p => addNote p s) t).noteID = t.noteID + ps.length ∧
      (ps.foldl (fun s p => addNote p s) t).heap.length = t.heap.length + ps.length ∧
      (∀ (j : Nat) (p : Nat), ps[j]? = some p →
        (ps.foldl (fun s p => addNote p s) t).notes.lookup (t.noteID + (j : Int)) =
          some ⟨p, t.heap.length + j⟩) ∧
      (∀ k, (k < t.noteID ∨ t.noteID + ps.length ≤ k) →
        (ps.foldl (fun s p => addNote p s) t).notes.lookup k = t.notes.lookup k) := by
  induction ps generalizing t with
  | nil => simp
  | cons q rest ih =>
    obtain ⟨i1, i2, i3, i4⟩ := ih (addNote q t)
    have e1 : (addNote q t).noteID = t.noteID + 1 := rfl
    have e2 : (addNote q t).heap.length = t.heap.length + 1 := by
      show (t.heap ++ [_]).length = _
      simp
    simp only [List.foldl_cons, List.length_cons]
    refine ⟨?_, ?_, ?_, ?_⟩
    · rw [i1, e1]; push_cast; ring
    · rw [i2, e2]; ring
    · intro j p hj
      cases j with
      | zero =>
        simp only [List.getElem?_cons_zero, Option.some.injEq] at hj
        subst hj
        have := i4 t.noteID (Or.inl (by rw [e1]; omega))
        have e0 : t.noteID + ((0 : Nat) : Int) = t.noteID := by simp
        rw [e0, this, addNote_lookup, if_pos rfl]
        rfl
      | succ j =>
        simp only [List.getElem?_cons_succ] at hj
        have := i3 j p hj
        rw [e1, e2] at this
        have ek : t.noteID + ((j + 1 : Nat) : Int) = t.noteID + 1 + (j : Int) := by
          push_cast; ring
        have eh : t.heap.length + (j + 1) = t.heap.length + 1 + j := by ring
        rw [ek, eh]
        exact this
    · intro k hk
      have hk2 : k < (addNote q t).noteID ∨ (addNote q t).noteID + rest.length ≤ k := by
        rw [e1]
        rcases hk with hk | hk
        · left; omega
        · right; push_cast at hk; omega
      rw [i4 k hk2, addNote_lookup, if_neg]
      rcases hk with hk | hk
      · omega
      · push_cast at hk; omega

theorem addNote_heap_kept (p : Nat) (t : tombolaSeq α) (i : Nat) (hi : i < t.heap.length) :
    (addNote p t).heap[i]? = t.heap[i]? := by
  show (t.heap ++ [_])[i]? = _
  exact List.getElem?_append_left hi

theorem addNote_heap_length (p : Nat) (t : tombolaSeq α) :
    (addNote p t).heap.length = t.heap.length + 1 := by
  show (t.heap ++ [_]).length = _
  simp

theorem addNote_UserData (p : Nat) (t : tombolaSeq α) :
    ((addNote p t).heap[t.heap.length]?).bind Body.UserData = some ⟨p, t.heap.length⟩ := by
  show ((t.heap ++ [_])[t.heap.length]?).bind Body.UserData = _
  rw [List.getElem?_concat_length]
  rfl

theorem processMIDI_heap_kept (lib : GoMidi) (pkts : List Packet) (t t' : tombolaSeq α)
    (hp : processMIDI lib pkts t = some t') :
    t'.seg = t.seg ∧ t.heap.length ≤ t'.heap.length ∧
      ∀ i, i < t.heap.length → t'.heap[i]? = t.heap[i]? := by
  induction pkts generalizing t with
  | nil =>
    simp only [processMIDI, Option.some.injEq] at hp
    subst hp
    exact ⟨rfl, le_rfl, fun _ _ => rfl⟩
  | cons pkt rest ih =>
    simp only [processMIDI] at hp
    split_ifs at hp with h1 h2 h3
    · obtain ⟨i1, i2, i3⟩ := ih _ hp
      have hl := addNote_heap_length (noteInfo pkt.Data).2.1 t
      refine ⟨i1, by omega, fun i hi => ?_⟩
      rw [i3 i (by omega), addNote_heap_kept _ t i hi]
    · exact ih _ hp
    · exact ih _ hp

theorem segAngle_congr (t t' : tombolaSeq α) (hs : t'.seg = t.seg)
    (hh : t'.heap[t.seg]? = t.heap[t.seg]?) : segAngle t' = segAngle t := by
  unfold segAngle
  rw [hs, hh]

theorem segAngle_deleteDropouts (order : List Int) (t : tombolaSeq α) :
    segAngle (deleteDropouts order t) = segAngle t :=
  segAngle_congr t _ (deleteDropouts_frame order t).2.2.2.2.1
    (by rw [deleteDropouts_heap])

theorem segAngle_processMIDI (lib : GoMidi) (pkts : List Packet) (t t' : tombolaSeq α)
    (h : Inv t) (hp : processMIDI lib pkts t = some t') : segAngle t' = segAngle t := by
  obtain ⟨h1, _, h3⟩ := processMIDI_heap_kept lib pkts t t' hp
  exact segAngle_congr t t' h1 (h3 _ h.seg_lt)

theorem segAngle_stepBodies (dt : α) (sv : Solver α) (t t' : tombolaSeq α) (h : Inv t)
    (hh : t'.heap = stepBodies dt sv t.space.bodies 0 t.heap) (hg : t'.seg = t.seg) :
    segAngle t' = sv.fl (segAngle t + sv.fl (sv.fl segmentRotation * dt)) := by
  unfold segAngle
  rw [hg, hh, stepBodies_getElem?]
  have hlt := h.seg_lt
  cases hb : t.heap[t.seg]? with
  | none =>
    rw [List.getElem?_eq_none_iff] at hb
    omega
  | some b =>
    obtain ⟨hk, hw⟩ := h.seg_body b hb
    simp only [Option.map_some', zero_add]
    rw [stepBody_angle dt sv _ _ b h.seg_reg hk, hw]

theorem segAngle_newTombolaSeq (m : GoMath α) (mi : midiInterface) (cfg : config) :
    segAngle (newTombolaSeq m mi cfg) = 0 := by
  simp [segAngle, newTombolaSeq, setupPhysics]

end StateLemmas

section StateLemmas2

variable {α : Type} [LinearOrderedField α] [FloorRing α]

theorem handleCollision_frame (t t' : tombolaSeq α) (a : Arbiter α)
    (h : handleCollision t a = some t') :
    t'.heap = t.heap ∧ t'.space = t.space ∧ t'.notes = t.notes ∧ t'.noteID = t.noteID ∧
      t'.seg = t.seg ∧ t'.inChannel = t.inChannel ∧ t'.outChannel = t.outChannel := by
  unfold handleCollision at h
  by_cases hf : a.IsFirstContact = true
  · simp only [hf, Bool.not_true, Bool.false_eq_true, if_false] at h
    cases hu : (t.heap[a.bodyA]?).bind Body.UserData with
    | none => simp [hu] at h
    | some note =>
      simp only [hu, Option.some.injEq] at h
      subst h
      simp
  · simp only [hf, Bool.not_false, if_true, Option.some.injEq] at h
    subst h
    simp

theorem postSolve_frame (cs : List (Arbiter α)) (t t' : tombolaSeq α)
    (h : postSolve cs t = some t') :
    t'.heap = t.heap ∧ t'.space = t.space ∧ t'.notes = t.notes ∧ t'.noteID = t.noteID ∧
      t'.seg = t.seg ∧ t'.inChannel = t.inChannel ∧ t'.outChannel = t.outChannel := by
  induction cs generalizing t with
  | nil =>
    simp only [postSolve, Option.some.injEq] at h
    subst h
    simp
  | cons a rest ih =>
    simp only [postSolve] at h
    cases hc : handleCollision t a with
    | none => simp [hc] at h
    | some t1 =>
      simp only [hc] at h
      obtain ⟨h1, h2, h3, h4, h5, h6, h7⟩ := ih t1 h
      obtain ⟨g1, g2, g3, g4, g5, g6, g7⟩ := handleCollision_frame t t1 a hc
      exact ⟨h1.trans g1, h2.trans g2, h3.trans g3, h4.trans g4, h5.trans g5, h6.trans g6,
        h7.trans g7⟩

theorem Step_frame (dt : α) (sv : Solver α) (t t' : tombolaSeq α) (h : Step dt sv t = some t') :
    t'.heap = stepBodies dt sv t.space.bodies 0 t.heap ∧ t'.space = t.space ∧
      t'.notes = t.notes ∧ t'.noteID = t.noteID ∧ t'.seg = t.seg ∧
      t'.inChannel = t.inChannel ∧ t'.outChannel = t.outChannel := by
  unfold Step at h
  exact postSolve_frame _ _ _ h

theorem Inv_Step (dt : α) (sv : Solver α) (t t' : tombolaSeq α) (h : Inv t)
    (hs : Step dt sv t = some t') : Inv t' := by
  obtain ⟨g1, g2, g3, g4, g5, _, _⟩ := Step_frame dt sv t t' hs
  exact Inv_of_heap_step dt sv t t' h g1 g2 g3 g4 g5

theorem Inv_applyOp (op : Op α) (t t' : tombolaSeq α) (h : Inv t)
    (ho : applyOp op t = some t') : Inv t' := by
  cases op with
  | addNote p =>
    simp only [applyOp, Option.some.injEq] at ho
    subst ho
    exact Inv_addNote p t h
  | deleteDropouts order =>
    simp only [applyOp, Option.some.injEq] at ho
    subst ho
    exact Inv_deleteDropouts order t h
  | Step dt sv => exact Inv_Step dt sv t t' h ho
  | processMIDI lib pkts => exact Inv_processMIDI lib pkts t t' h ho

theorem Inv_runOps (ops : List (Op α)) (t t' : tombolaSeq α) (h : Inv t)
    (hr : runOps ops t = some t') : Inv t' := by
  induction ops generalizing t with
  | nil =>
    simp only [runOps, Option.some.injEq] at hr
    subst hr
    exact h
  | cons op rest ih =>
    simp only [runOps] at hr
    cases ho : applyOp op t with
    | none => simp [ho] at hr
    | some t1 =>
      simp only [ho] at hr
      exact ih t1 (Inv_applyOp op t t1 h ho) hr

theorem Inv_of_Reachable (t : tombolaSeq α) (h : Reachable t) : Inv t := by
  obtain ⟨m, mi, cfg, ops, hr⟩ := h
  exact Inv_runOps ops _ t (Inv_newTombolaSeq m mi cfg) hr

theorem Step_noteID (dt : α) (sv : Solver α) (t t' : tombolaSeq α) (h : Step dt sv t = some t') :
    t'.noteID = t.noteID :=
  (Step_frame dt sv t t' h).2.2.2.1

theorem spawnIds_bounds (ops : List (Op α)) (t : tombolaSeq α) :
    (spawnIds ops t).Sorted (· < ·) ∧ ∀ id ∈ spawnIds ops t, t.noteID ≤ id := by
  induction ops generalizing t with
  | nil => simp [spawnIds]
  | cons op rest ih =>
    cases op with
    | addNote p =>
      obtain ⟨i1, i2⟩ := ih (addNote p t)
      have e : (addNote p t).noteID = t.noteID + 1 := rfl
      simp only [spawnIds]
      refine ⟨?_, ?_⟩
      · rw [List.Sorted, List.pairwise_cons]
        refine ⟨fun id hid => ?_, i1⟩
        have := i2 id hid
        omega
      · intro id hid
        rw [List.mem_cons] at hid
        rcases hid with hid | hid
        · omega
        · have := i2 id hid
          omega
    | deleteDropouts order =>
      obtain ⟨i1, i2⟩ := ih (deleteDropouts order t)
      rw [(deleteDropouts_frame order t).1] at i2
      exact ⟨i1, i2⟩
    | Step dt sv =>
      simp only [spawnIds]
      cases hs : Step dt sv t with
      | none => simp
      | some t1 =>
        obtain ⟨i1, i2⟩ := ih t1
        rw [Step_noteID dt sv t t1 hs] at i2
        exact ⟨i1, i2⟩
    | processMIDI lib pkts =>
      simp only [spawnIds]
      obtain ⟨p1, p2, p3⟩ := processMIDIIds_bounds lib pkts t
      cases hs : processMIDI lib pkts t with
      | none => simpa using ⟨p1, p2⟩
      | some t1 =>
        obtain ⟨i1, i2⟩ := ih t1
        have hle := processMIDI_noteID lib pkts t t1 hs
        refine ⟨?_, ?_⟩
        · rw [List.Sorted, List.pairwise_append]
          refine ⟨p1, i1, fun a ha b hb => ?_⟩
          have h1 := p3 t1 hs a ha
          have h2 := i2 b hb
          omega
        · intro id hid
          rw [List.mem_append] at hid
          rcases hid with hid | hid
          · exact p2 id hid
          · have := i2 id hid
            omega

theorem segAngle_Step (dt : α) (sv : Solver α) (t t' : tombolaSeq α) (h : Inv t)
    (hs : Step dt sv t = some t') :
    segAngle t' = sv.fl (segAngle t + sv.fl (sv.fl segmentRotation * dt)) := by
  obtain ⟨g1, _, _, _, g5, _, _⟩ := Step_frame dt sv t t' hs
  exact segAngle_stepBodies dt sv t t' h g1 g5

theorem run_tick (lib : GoMidi) (now : Int) (sv : Solver α) (order : List Int)
    (rest : List (Event α)) (t : tombolaSeq α) (T0 : Int) :
    run lib (Event.tick now sv order :: rest) (t, T0) =
      (Step (sv.fl (sv.fl ((now - T0 : Int) : α) / 1000000000)) sv t).bind
        (fun t1 => run lib rest (deleteDropouts order t1, now)) := by
  simp only [run]
  cases Step (sv.fl (sv.fl ((now - T0 : Int) : α) / 1000000000)) sv t <;> rfl

theorem run_packets (lib : GoMidi) (pkts : List Packet) (rest : List (Event α))
    (t : tombolaSeq α) (T0 : Int) :
    run lib (Event.packets pkts :: rest) (t, T0) =
      (processMIDI lib pkts t).bind (fun t1 => run lib rest (t1, T0)) := by
  simp only [run]
  cases processMIDI lib pkts t <;> rfl

theorem run_spec (lib : GoMidi) (events : List (Event α)) (t t' : tombolaSeq α)
    (T0 last : Int) (h : Inv t) (hr : run lib events (t, T0) = some (t', last)) :
    Inv t' ∧ last = lastTick events T0 ∧ (stepDeltas events T0).sum = last - T0 ∧
      (ExactTicks events →
        (stepSizes events T0).sum = ((last - T0 : Int) : α) / 1000000000 ∧
          segAngle t' =
            segAngle t + segmentRotation * (((last - T0 : Int) : α) / 1000000000)) := by
  induction events generalizing t T0 with
  | nil =>
    simp only [run, Option.some.injEq, Prod.mk.injEq] at hr
    obtain ⟨rfl, rfl⟩ := hr
    simp [lastTick, stepSizes, stepDeltas, h]
  | cons e rest ih =>
    cases e with
    | tick now sv order =>
      rw [run_tick] at hr
      cases hs : Step (sv.fl (sv.fl ((now - T0 : Int) : α) / 1000000000)) sv t with
      | none =>
        rw [hs] at hr
        cases hr
      | some t1 =>
        rw [hs] at hr
        have hi1 : Inv t1 := Inv_Step _ sv t t1 h hs
        have hi2 : Inv (deleteDropouts order t1) := Inv_deleteDropouts order t1 hi1
        obtain ⟨r1, r2, r3, r4⟩ := ih (deleteDropouts order t1) now hi2 hr
        refine ⟨r1, r2, ?_, ?_⟩
        · simp only [stepDeltas, List.sum_cons, r3]
          ring
        · intro hex
          obtain ⟨hfl, hrest⟩ := hex
          obtain ⟨r5, r6⟩ := r4 hrest
          have ha : segAngle (deleteDropouts order t1) =
              segAngle t + segmentRotation * (((now - T0 : Int) : α) / 1000000000) := by
            rw [segAngle_deleteDropouts, segAngle_Step _ sv t t1 h hs]
            simp only [hfl]
          refine ⟨?_, ?_⟩
          · simp only [stepSizes, List.sum_cons, r5, hfl]
            push_cast
            ring
          · rw [r6, ha]
            push_cast
            ring
    | packets pkts =>
      rw [run_packets] at hr
      cases hs : processMIDI lib pkts t with
      | none =>
        rw [hs] at hr
        cases hr
      | some t1 =>
        rw [hs] at hr
        have hi1 : Inv t1 := Inv_processMIDI lib pkts t t1 h hs
        obtain ⟨r1, r2, r3, r4⟩ := ih t1 T0 hi1 hr
        refine ⟨r1, r2, r3, ?_⟩
        intro hex
        obtain ⟨r5, r6⟩ := r4 hex
        refine ⟨r5, ?_⟩
        rw [r6, segAngle_processMIDI lib pkts t t1 h hs]

theorem UserData_applyOp (op : Op α) (t t' : tombolaSeq α) (i : Nat) (n : tombolaNote)
    (ho : applyOp op t = some t') (hu : (t.heap[i]?).bind Body.UserData = some n) :
    (t'.heap[i]?).bind Body.UserData = some n := by
  have hi : i < t.heap.length := by
    by_contra hc
    rw [List.getElem?_eq_none (by omega)] at hu
    cases hu
  cases op with
  | addNote p =>
    simp only [applyOp, Option.some.injEq] at ho
    subst ho
    rw [addNote_heap_kept p t i hi]
    exact hu
  | deleteDropouts order =>
    simp only [applyOp, Option.some.injEq] at ho
    subst ho
    rw [deleteDropouts_heap]
    exact hu
  | Step dt sv =>
    have hh := (Step_frame dt sv t t' ho).1
    rw [hh, stepBodies_getElem?]
    cases hb : t.heap[i]? with
    | none => simp [hb] at hu
    | some b =>
      simp only [hb, Option.some_bind] at hu
      simp only [Option.map_some', Option.some_bind]
      rw [(stepBody_fields dt sv _ _ b).2.2.1]
      exact hu
  | processMIDI lib pkts =>
    rw [(processMIDI_heap_kept lib pkts t t' ho).2.2 i hi]
    exact hu

theorem UserData_runOps (ops : List (Op α)) (t t' : tombolaSeq α) (i : Nat) (n : tombolaNote)
    (hr : runOps ops t = some t') (hu : (t.heap[i]?).bind Body.UserData = some n) :
    (t'.heap[i]?).bind Body.UserData = some n := by
  induction ops generalizing t with
  | nil =>
    simp only [runOps, Option.some.injEq] at hr
    subst hr
    exact hu
  | cons op rest ih =>
    simp only [runOps] at hr
    cases ho : applyOp op t with
    | none => simp [ho] at hr
    | some t1 =>
      simp only [ho] at hr
      exact ih t1 hr (UserData_applyOp op t t1 i n ho hu)

theorem uint8_lt (i : Int) : uint8 i < 256 := by
  unfold uint8
  omega

theorem handleCollision_first (t : tombolaSeq α) (a : Arbiter α) (note : tombolaNote)
    (hf : a.IsFirstContact = true)
    (hu : (t.heap[a.bodyA]?).bind Body.UserData = some note) :
    handleCollision t a =
      some { t with midi := ⟨t.midi.written ++
        [[(0x90 ||| t.outChannel) % 256, note.pitch % 256, velocity a.TotalImpulseLength]]⟩ } := by
  unfold handleCollision
  simp only [hf, Bool.not_true, Bool.false_eq_true, if_false, hu, midiInterface.sendNoteOn]
  have hv : velocity a.TotalImpulseLength % 256 = velocity a.TotalImpulseLength :=
    Nat.mod_eq_of_lt (uint8_lt _)
  rw [hv]

theorem handleCollision_progress (t : tombolaSeq α) (a : Arbiter α) (h : Inv t)
    (ha : a.IsFirstContact = true → a.bodyA < t.heap.length ∧ a.bodyA ≠ t.seg) :
    ∃ t', handleCollision t a = some t' := by
  by_cases hf : a.IsFirstContact = true
  · obtain ⟨hlt, hne⟩ := ha hf
    cases hb : t.heap[a.bodyA]? with
    | none =>
      rw [List.getElem?_eq_none_iff] at hb
      omega
    | some b =>
      obtain ⟨_, n, hn, _⟩ := h.user a.bodyA b hb hne
      exact ⟨_, handleCollision_first t a n hf (by rw [hb]; exact hn)⟩
  · exact ⟨t, by simp [handleCollision, hf]⟩

theorem postSolve_progress (cs : List (Arbiter α)) (t : tombolaSeq α) (h : Inv t)
    (ha : ∀ a ∈ cs, a.IsFirstContact = true → a.bodyA < t.heap.length ∧ a.bodyA ≠ t.seg) :
    ∃ t', postSolve cs t = some t' := by
  induction cs generalizing t with
  | nil => exact ⟨t, rfl⟩
  | cons a rest ih =>
    obtain ⟨t1, h1⟩ := handleCollision_progress t a h (ha a (List.mem_cons_self _ _))
    obtain ⟨g1, g2, g3, g4, g5, _, _⟩ := handleCollision_frame t t1 a h1
    have hi1 : Inv t1 :=
      ⟨by rw [g5, g1]; exact h.seg_lt, by rw [g5, g1]; exact h.seg_body,
        by rw [g5, g2]; exact h.seg_reg, by rw [g3, g4]; exact h.ids,
        by rw [g3, g1, g5]; exact h.noteBody, by rw [g1, g5]; exact h.user⟩
    obtain ⟨t2, h2⟩ := ih t1 hi1 (fun b hb hf => by
      rw [g1, g5]
      exact ha b (List.mem_cons_of_mem _ hb) hf)
    exact ⟨t2, by simp only [postSolve, h1, h2]⟩

theorem Step_progress (dt : α) (sv : Solver α) (t : tombolaSeq α) (h : Inv t)
    (ha : ∀ a ∈ sv.contacts, a.IsFirstContact = true →
      a.bodyA < t.heap.length ∧ a.bodyA ≠ t.seg) :
    ∃ t', Step dt sv t = some t' := by
  unfold Step
  apply postSolve_progress
  · exact Inv_of_heap_step dt sv t _ h rfl rfl rfl rfl rfl
  · intro a hm hf
    obtain ⟨h1, h2⟩ := ha a hm hf
    exact ⟨by simp only [stepBodies_length]; exact h1, h2⟩

end StateLemmas2

/-! ## Theorems -/

/-- C1 (as stated, refuted): at the impulse `1/10`, where `x * 10 >= 1`, the
velocity computed by `handleCollision` is not 127. -/
theorem C1_velocity_at_threshold_ne_127 :
    (1 : ℚ) ≤ (1 / 10 : ℚ) * 10 ∧ velocity (1 / 10 : ℚ) ≠ 127 := by
  have h : velocity (1 / 10 : ℚ) = 120 := velocity_of_clamped _ (by norm_num)
  rw [h]
  constructor
  · norm_num
  · decide

/-- C1 (amended): for every impulse magnitude `x` at or above the clamp
threshold (`x * 10 >= 1`) the velocity `uint8(60 + 60 * min(1.0, x * 10))`
equals 120. -/
theorem C1_velocity_clamped {α : Type} [LinearOrderedField α] [FloorRing α] (x : α)
    (h : 1 ≤ x * 10) : velocity x = 120 :=
  velocity_of_clamped x h

/-- C1 (amended) at the impulse `1/2`. -/
theorem C1_velocity_clamped_witness :
    (1 : ℚ) ≤ (1 / 2 : ℚ) * 10 ∧ velocity (1 / 2 : ℚ) = 120 :=
  ⟨by norm_num, C1_velocity_clamped (1 / 2 : ℚ) (by norm_num)⟩

/-- C2: the velocity mapping of `handleCollision` gives 60 at impulse 0, is
non-decreasing on non-negative impulses, stays within `60 ..= 127`, and the
truncated value is the converted value (the conversion to `uint8` does not
wrap). -/
theorem C2_velocity_monotone_bounded {α : Type} [LinearOrderedField α] [FloorRing α]
    (x y : α) (hx : 0 ≤ x) (hxy : x ≤ y) :
    velocity (0 : α) = 60 ∧ velocity x ≤ velocity y ∧
      60 ≤ velocity x ∧ velocity x ≤ 127 ∧
      truncate (60 + 60 * min 1 (x * 10)) = (velocity x : Int) := by
  obtain ⟨ex, lx, ux⟩ := velocity_eq_floor x hx
  obtain ⟨ey, _, _⟩ := velocity_eq_floor y (le_trans hx hxy)
  have hmono : ⌊velocityArg x⌋ ≤ ⌊velocityArg y⌋ := Int.floor_mono (velocityArg_mono x y hxy)
  refine ⟨velocity_zero, by omega, by omega, by omega, ?_⟩
  · rw [ex]
    exact truncate_of_nonneg _ (le_trans (by norm_num) (velocityArg_lower x hx))

/-- C2 at the impulses `1/20` and `1/10`. -/
theorem C2_velocity_monotone_bounded_witness :
    velocity (0 : ℚ) = 60 ∧ velocity (1 / 20 : ℚ) ≤ velocity (1 / 10 : ℚ) ∧
      60 ≤ velocity (1 / 20 : ℚ) ∧ velocity (1 / 20 : ℚ) ≤ 127 ∧
      truncate (60 + 60 * min 1 ((1 / 20 : ℚ) * 10)) = (velocity (1 / 20 : ℚ) : Int) :=
  C2_velocity_monotone_bounded (1 / 20 : ℚ) (1 / 10 : ℚ) (by norm_num) (by norm_num)

/-- C3: in every reachable state every key of `t.notes` is smaller than
`t.noteID`; so `t.noteID` is not a key, `addNote` stores its note under
`t.noteID` without changing any other entry, the map grows by exactly one
entry and the counter by one; and over any sequence of calls (`addNote`
interleaved with sweeps, steps and MIDI batches) the ids under which notes are
stored are strictly increasing, pairwise distinct, and not keys of live
notes. -/
theorem C3_note_ids_increasing {α : Type} [LinearOrderedField α] [FloorRing α]
    (t : tombolaSeq α) (h : Reachable t) (p : Nat) (ops : List (Op α)) :
    (spawnIds ops t).Sorted (· < ·) ∧ (spawnIds ops t).Nodup ∧
      (∀ id ∈ spawnIds ops t, id ∉ t.notes) ∧
      (∀ k, k ∈ t.notes → k < t.noteID) ∧
      t.noteID ∉ t.notes ∧
      (addNote p t).notes.lookup t.noteID = some ⟨p, t.heap.length⟩ ∧
      (∀ k, k ∈ t.notes → (addNote p t).notes.lookup k = t.notes.lookup k) ∧
      (addNote p t).notes.keys.card = t.notes.keys.card + 1 ∧
      (addNote p t).noteID = t.noteID + 1 := by
  have hinv := Inv_of_Reachable t h
  obtain ⟨hs, hb⟩ := spawnIds_bounds ops t
  have hfresh : t.noteID ∉ t.notes := fun hm => lt_irrefl _ (hinv.ids _ hm)
  refine ⟨hs, hs.nodup, ?_, hinv.ids, hfresh, ?_, ?_, addNote_card p t hfresh, rfl⟩
  · intro id hid hm
    have h1 := hb id hid
    have h2 := hinv.ids id hm
    omega
  · rw [addNote_lookup, if_pos rfl]
  · intro k hk
    rw [addNote_lookup, if_neg]
    intro hkid
    exact hfresh (hkid ▸ hk)

/-- C3 at the example sequencer, followed by a spawn, a sweep and a spawn. -/
theorem C3_note_ids_increasing_witness :
    Reachable exampleMoved ∧
      ((spawnIds [Op.addNote 62, Op.deleteDropouts [0, 1], Op.addNote 63] exampleMoved).Sorted
          (· < ·) ∧
        (spawnIds [Op.addNote 62, Op.deleteDropouts [0, 1], Op.addNote 63] exampleMoved).Nodup ∧
        (∀ id ∈ spawnIds [Op.addNote 62, Op.deleteDropouts [0, 1], Op.addNote 63] exampleMoved,
          id ∉ exampleMoved.notes) ∧
        (∀ k, k ∈ exampleMoved.notes → k < exampleMoved.noteID) ∧
        exampleMoved.noteID ∉ exampleMoved.notes ∧
        (addNote 62 exampleMoved).notes.lookup exampleMoved.noteID =
          some ⟨62, exampleMoved.heap.length⟩ ∧
        (∀ k, k ∈ exampleMoved.notes →
          (addNote 62 exampleMoved).notes.lookup k = exampleMoved.notes.lookup k) ∧
        (addNote 62 exampleMoved).notes.keys.card = exampleMoved.notes.keys.card + 1 ∧
        (addNote 62 exampleMoved).noteID = exampleMoved.noteID + 1) :=
  ⟨⟨ratMath, ⟨[]⟩, parseFlags 1 2 "", exampleOps, rfl⟩,
    C3_note_ids_increasing exampleMoved ⟨ratMath, ⟨[]⟩, parseFlags 1 2 "", exampleOps, rfl⟩ 62
      [Op.addNote 62, Op.deleteDropouts [0, 1], Op.addNote 63]⟩

/-- C4: when the sweep ranges over the keys of the map (in any order), the map
afterwards holds exactly the entries of the map before whose body position has
both coordinates within `[-3, 3]`, each with its id, pitch and body as before
(no body is changed, `noteID` is unchanged); the test removes an entry if and
only if `X` or `Y` exceeds `±3`; the resulting state is the same for every
order of iteration; and a note whose position lies within the unit circle is
kept. -/
theorem C4_deleteDropouts_filter {α : Type} [LinearOrderedField α] (t : tombolaSeq α)
    (order : List Int) (h : IsRangeOrder order t.notes) :
    (∀ k, (deleteDropouts order t).notes.lookup k =
        (t.notes.lookup k).filter (fun n =>
          decide ((-3 ≤ (Position t n.body).X ∧ (Position t n.body).X ≤ 3) ∧
            (-3 ≤ (Position t n.body).Y ∧ (Position t n.body).Y ≤ 3)))) ∧
      (∀ pos : Vector α, isDropout pos = true ↔
        (pos.X > 3 ∨ pos.X < -3 ∨ pos.Y > 3 ∨ pos.Y < -3)) ∧
      (deleteDropouts order t).heap = t.heap ∧
      (deleteDropouts order t).noteID = t.noteID ∧
      (∀ order2, IsRangeOrder order2 t.notes →
        deleteDropouts order2 t = deleteDropouts order t) ∧
      (∀ k n, t.notes.lookup k = some n →
        (Position t n.body).X ^ 2 + (Position t n.body).Y ^ 2 ≤ 1 →
        (deleteDropouts order t).notes.lookup k = some n) := by
  have hkeep : keepNote t = (fun n =>
      decide ((-3 ≤ (Position t n.body).X ∧ (Position t n.body).X ≤ 3) ∧
        (-3 ≤ (Position t n.body).Y ∧ (Position t n.body).Y ≤ 3))) := by
    funext n
    have := isDropout_eq_false_iff (Position t n.body)
    cases hd : isDropout (Position t n.body) with
    | false => simp [keepNote, hd, this.mp hd]
    | true =>
      have hn : ¬ ((-3 ≤ (Position t n.body).X ∧ (Position t n.body).X ≤ 3) ∧
          (-3 ≤ (Position t n.body).Y ∧ (Position t n.body).Y ≤ 3)) := by
        intro hc
        rw [this.mpr hc] at hd
        cases hd
      simp only [keepNote, hd, Bool.not_true]
      exact (decide_eq_false hn).symm
  have hlook : ∀ k, (deleteDropouts order t).notes.lookup k =
      (t.notes.lookup k).filter (keepNote t) := by
    intro k
    rw [deleteDropouts_lookup]
    by_cases hk : k ∈ order
    · rw [if_pos hk]
    · rw [if_neg hk]
      have hnot : k ∉ t.notes := fun hm => hk ((h.2 k).mpr hm)
      rw [Finmap.lookup_eq_none.mpr hnot]
      rfl
  refine ⟨?_, ?_, deleteDropouts_heap order t, (deleteDropouts_frame order t).1, ?_, ?_⟩
  · intro k
    rw [hlook k, hkeep]
  · intro pos
    simp only [isDropout, Bool.or_eq_true, decide_eq_true_eq]
    tauto
  · intro order2 h2
    apply deleteDropouts_perm
    rw [List.perm_ext_iff_of_nodup h2.1 h.1]
    intro k
    rw [h2.2 k, h.2 k]
  · intro k n hk hdisc
    rw [hlook k, hk]
    simp [Option.filter, keepNote, isDropout_of_unit_disc _ hdisc]

/-- C4 at the example sequencer, swept in the order 1, 0. -/
theorem C4_deleteDropouts_filter_witness :
    IsRangeOrder [1, 0] exampleMoved.notes ∧
      ((∀ k, (deleteDropouts [1, 0] exampleMoved).notes.lookup k =
          (exampleMoved.notes.lookup k).filter (fun n =>
            decide ((-3 ≤ (Position exampleMoved n.body).X ∧
                (Position exampleMoved n.body).X ≤ 3) ∧
              (-3 ≤ (Position exampleMoved n.body).Y ∧
                (Position exampleMoved n.body).Y ≤ 3)))) ∧
        (∀ pos : Vector ℚ, isDropout pos = true ↔
          (pos.X > 3 ∨ pos.X < -3 ∨ pos.Y > 3 ∨ pos.Y < -3)) ∧
        (deleteDropouts [1, 0] exampleMoved).heap = exampleMoved.heap ∧
        (deleteDropouts [1, 0] exampleMoved).noteID = exampleMoved.noteID ∧
        (∀ order2, IsRangeOrder order2 exampleMoved.notes →
          deleteDropouts order2 exampleMoved = deleteDropouts [1, 0] exampleMoved) ∧
        (∀ k n, exampleMoved.notes.lookup k = some n →
          (Position exampleMoved n.body).X ^ 2 + (Position exampleMoved n.body).Y ^ 2 ≤ 1 →
          (deleteDropouts [1, 0] exampleMoved).notes.lookup k = some n)) :=
  have hr : IsRangeOrder [1, 0] exampleMoved.notes :=
    ⟨by decide, fun k => by
      show k ∈ [1, 0] ↔ k ∈ ((∅ : Finmap (fun _ : Int => tombolaNote)).insert 0 ⟨60, 1⟩).insert 1
        ⟨61, 2⟩
      simp only [Finmap.mem_insert, List.mem_cons, List.mem_singleton, List.not_mem_nil,
        Finmap.not_mem_empty, or_false]⟩
  ⟨hr, C4_deleteDropouts_filter exampleMoved [1, 0] hr⟩

/-- C5 (the code at the failing input): note 0 of the example, whose body 1 is
at `(4, 0)`, is swept: it is no longer in the map, its body is no longer
registered, and a second sweep changes nothing; but the circle shape that
`addNote` registered for body 1 is still registered in the space, and a
collision callback for body 1 still sends its note. -/
theorem C5_sweep_leaves_shape_registered :
    Position exampleMoved 1 = ⟨4, 0⟩ ∧
      exampleMoved.notes.lookup 0 = some ⟨60, 1⟩ ∧
      (deleteDropouts [0, 1] exampleMoved).notes.lookup 0 = none ∧
      (deleteDropouts [0, 1] (deleteDropouts [0, 1] exampleMoved)).notes =
        (deleteDropouts [0, 1] exampleMoved).notes ∧
      1 ∉ (deleteDropouts [0, 1] exampleMoved).space.bodies ∧
      (⟨1, ShapeClass.Circle ballRadius ⟨0, 0⟩, ballElasticity, collNote⟩ : Shape ℚ) ∈
        (deleteDropouts [0, 1] exampleMoved).space.shapes ∧
      (handleCollision (deleteDropouts [0, 1] exampleMoved) ⟨true, 1, 0, 1 / 20⟩).map
        (fun s => s.midi.written) = some [[0x91, 60, 90]] := by
  decide!

/-- C6: for a batch of packets none of which carries an error, `processMIDI`
returns, and its result is the state after one `addNote` for each packet that
is a note-on with status low nibble `t.inChannel`, in batch order and with
that packet's data byte 1 as pitch: `noteID` grows by the number of such
packets, the `j`-th of them is stored under the id `noteID + j` (distinct ids
for distinct packets), every other entry of the map is as before, and a batch
without such a packet leaves the state unchanged. -/
theorem C6_processMIDI_spawns {α : Type} [LinearOrderedField α] (lib : GoMidi)
    (t : tombolaSeq α) (pkts : List Packet) (h : ∀ pkt ∈ pkts, pkt.Err = none) :
    ∃ t', processMIDI lib pkts t = some t' ∧
      t' = (noteOnPitches lib t.inChannel pkts).foldl (fun s p => addNote p s) t ∧
      t'.noteID = t.noteID + (noteOnPitches lib t.inChannel pkts).length ∧
      (∀ (j : Nat) (p : Nat), (noteOnPitches lib t.inChannel pkts)[j]? = some p →
        t'.notes.lookup (t.noteID + (j : Int)) = some ⟨p, t.heap.length + j⟩) ∧
      (∀ k, (k < t.noteID ∨ t.noteID + (noteOnPitches lib t.inChannel pkts).length ≤ k) →
        t'.notes.lookup k = t.notes.lookup k) ∧
      (noteOnPitches lib t.inChannel pkts = [] → t' = t) := by
  obtain ⟨s1, _, s3, s4⟩ := foldl_addNote_spec (noteOnPitches lib t.inChannel pkts) t
  refine ⟨_, processMIDI_eq_foldl lib pkts t h, rfl, s1, s3, s4, ?_⟩
  intro he
  rw [he]
  rfl

/-- C6 at a new sequencer and a batch of three note-ons, two of them on the
input channel. -/
theorem C6_processMIDI_spawns_witness :
    (∀ pkt ∈ [(⟨(0x90, 60, 100), none⟩ : Packet), ⟨(0x91, 72, 100), none⟩,
        ⟨(0x90, 61, 100), none⟩], pkt.Err = none) ∧
      ∃ t', processMIDI exampleMidi [(⟨(0x90, 60, 100), none⟩ : Packet), ⟨(0x91, 72, 100), none⟩,
          ⟨(0x90, 61, 100), none⟩] exampleNew = some t' ∧
        t' = (noteOnPitches exampleMidi exampleNew.inChannel [(⟨(0x90, 60, 100), none⟩ : Packet),
          ⟨(0x91, 72, 100), none⟩, ⟨(0x90, 61, 100), none⟩]).foldl
            (fun s p => addNote p s) exampleNew ∧
        t'.noteID = exampleNew.noteID + (noteOnPitches exampleMidi exampleNew.inChannel
          [(⟨(0x90, 60, 100), none⟩ : Packet), ⟨(0x91, 72, 100), none⟩,
            ⟨(0x90, 61, 100), none⟩]).length ∧
        (∀ (j : Nat) (p : Nat), (noteOnPitches exampleMidi exampleNew.inChannel
            [(⟨(0x90, 60, 100), none⟩ : Packet), ⟨(0x91, 72, 100), none⟩,
              ⟨(0x90, 61, 100), none⟩])[j]? = some p →
          t'.notes.lookup (exampleNew.noteID + (j : Int)) =
            some ⟨p, exampleNew.heap.length + j⟩) ∧
        (∀ k, (k < exampleNew.noteID ∨ exampleNew.noteID +
            (noteOnPitches exampleMidi exampleNew.inChannel [(⟨(0x90, 60, 100), none⟩ : Packet),
              ⟨(0x91, 72, 100), none⟩, ⟨(0x90, 61, 100), none⟩]).length ≤ k) →
          t'.notes.lookup k = exampleNew.notes.lookup k) ∧
        (noteOnPitches exampleMidi exampleNew.inChannel [(⟨(0x90, 60, 100), none⟩ : Packet),
          ⟨(0x91, 72, 100), none⟩, ⟨(0x90, 61, 100), none⟩] = [] → t' = exampleNew) :=
  have he : ∀ pkt ∈ [(⟨(0x90, 60, 100), none⟩ : Packet), ⟨(0x91, 72, 100), none⟩,
      ⟨(0x90, 61, 100), none⟩], pkt.Err = none := by decide
  ⟨he, C6_processMIDI_spawns exampleMidi exampleNew _ he⟩

/-- C7 (as stated, refuted): `parseFlags` stores `uint8(*out - 1)` unchecked.
With `-outch 17` the stored channel is 16 and the first-contact callback
writes `[0x90, 60, 90]`, a note-on on channel 0, not 16; with `-outch 33` the
stored channel is 32 and it writes `[0xB0, 60, 90]`, whose status byte is not
that of a note-on. -/
theorem C7_written_channel_differs :
    (handleCollision (addNote 60 (newTombolaSeq ratMath ⟨[]⟩ (parseFlags 1 17 "")))
        ⟨true, 1, 0, 1 / 20⟩).map (fun s => (s.outChannel, s.midi.written)) =
      some (16, [[0x90, 60, 90]]) ∧
      (noteInfo (0x90, 60, 90)).1 ≠ 16 ∧
      (handleCollision (addNote 60 (newTombolaSeq ratMath ⟨[]⟩ (parseFlags 1 33 "")))
        ⟨true, 1, 0, 1 / 20⟩).map (fun s => (s.outChannel, s.midi.written)) =
      some (32, [[0xB0, 60, 90]]) ∧
      0xB0 / 16 ≠ 0x9 := by
  decide!

/-- C7 (amended): a callback that is not a first contact leaves the state as it
is (no MIDI message); a first-contact callback for a body whose `UserData` is
`note` appends exactly one write to the device, the three bytes
`[0x90 | outChannel, note.pitch, velocity]` with the velocity computed from
the impulse, and changes nothing else (notes, `noteID`, space and bodies are
as before); for a note spawned by `addNote p` with `p <= 127`, after any
calls (steps, sweeps, further spawns) the callback for its body sends pitch
`p`; in a reachable state a first-contact callback for any allocated body
other than the container returns; and when `outChannel` is in `0 ..= 15` the
bytes written are a note-on whose channel is `outChannel`. -/
theorem C7_handleCollision_note_on {α : Type} [LinearOrderedField α] [FloorRing α]
    (t : tombolaSeq α) (a : Arbiter α) :
    (a.IsFirstContact = false → handleCollision t a = some t) ∧
      (∀ note, a.IsFirstContact = true →
        (t.heap[a.bodyA]?).bind Body.UserData = some note →
        handleCollision t a = some { t with midi := ⟨t.midi.written ++
          [[(0x90 ||| t.outChannel) % 256, note.pitch % 256,
            velocity a.TotalImpulseLength]]⟩ }) ∧
      (∀ t', handleCollision t a = some t' →
        t'.notes = t.notes ∧ t'.noteID = t.noteID ∧ t'.space = t.space ∧ t'.heap = t.heap) ∧
      (∀ (s : tombolaSeq α) (p : Nat) (ops : List (Op α)), p ≤ 127 →
        runOps ops (addNote p s) = some t → a.bodyA = s.heap.length →
        a.IsFirstContact = true →
        handleCollision t a = some { t with midi := ⟨t.midi.written ++
          [[(0x90 ||| t.outChannel) % 256, p, velocity a.TotalImpulseLength]]⟩ }) ∧
      (Reachable t → a.bodyA < t.heap.length → a.bodyA ≠ t.seg →
        ∃ t', handleCollision t a = some t') ∧
      (∀ pitch vel, t.outChannel < 16 →
        (0x90 ||| t.outChannel) % 256 / 16 = 0x9 ∧
          noteInfo ((0x90 ||| t.outChannel) % 256, pitch, vel) = (t.outChannel, pitch, vel)) := by
  refine ⟨?_, ?_, ?_, ?_, ?_, ?_⟩
  rotate_right
  · intro pitch vel hch
    generalize t.outChannel = ch at hch
    constructor
    · interval_cases ch <;> rfl
    · have h2 : ((0x90 ||| ch) % 256) &&& 0x0F = ch := by
        interval_cases ch <;> rfl
      simp only [noteInfo, h2]
  · intro hf
    simp [handleCollision, hf]
  · intro note hf hu
    exact handleCollision_first t a note hf hu
  · intro t' ht'
    obtain ⟨g1, g2, g3, g4, _⟩ := handleCollision_frame t t' a ht'
    exact ⟨g3, g4, g2, g1⟩
  · intro s p ops hp hr ha hf
    have hu := UserData_runOps ops _ t _ _ hr (addNote_UserData p s)
    rw [← ha] at hu
    have := handleCollision_first t a _ hf hu
    rw [this]
    have hmod : p % 256 = p := Nat.mod_eq_of_lt (by omega)
    simp only [hmod]
  · intro hR hlt hne
    exact handleCollision_progress t a (Inv_of_Reachable t hR) (fun _ => ⟨hlt, hne⟩)

/-- C7 (amended) at the example sequencer: the callback for the body of the
note spawned with pitch 60 sends pitch 60. -/
theorem C7_handleCollision_note_on_witness :
    (60 ≤ 127 ∧ runOps [Op.addNote 61, Op.Step (1 / 100) exampleSolver] (addNote 60 exampleNew) =
        some exampleMoved ∧
      (⟨true, 1, 0, 1 / 20⟩ : Arbiter ℚ).bodyA = exampleNew.heap.length ∧
      (⟨true, 1, 0, 1 / 20⟩ : Arbiter ℚ).IsFirstContact = true) ∧
      handleCollision exampleMoved ⟨true, 1, 0, 1 / 20⟩ =
        some { exampleMoved with midi := ⟨exampleMoved.midi.written ++
          [[(0x90 ||| exampleMoved.outChannel) % 256, 60,
            velocity (⟨true, 1, 0, 1 / 20⟩ : Arbiter ℚ).TotalImpulseLength]]⟩ } :=
  ⟨⟨by decide, rfl, rfl, rfl⟩,
    (C7_handleCollision_note_on exampleMoved ⟨true, 1, 0, 1 / 20⟩).2.2.2.1 exampleNew 60
      [Op.addNote 61, Op.Step (1 / 100) exampleSolver] (by decide) rfl rfl rfl⟩

/-- C8: for `uint8` arguments `sendNoteOn` writes exactly the three bytes
`[0x90 | c, pitch, vel]`, `noteInfo` returns
`(status & 0x0F, data 1, data 2)`, and for a zero-based channel `ch` in
`0 ..= 15` (the stored form of the configured channel `ch + 1`) the status byte
written has high nibble `0x9` and `noteInfo` of the written bytes returns
`(ch, pitch, vel)`. -/
theorem C8_sendNoteOn_noteInfo (mi : midiInterface) (c ch pitch vel : Nat) (dev : String)
    (b0 b1 b2 : Nat) (hc : c < 256) (hch : ch < 16) (hp : pitch < 256) (hv : vel < 256) :
    (mi.sendNoteOn c pitch vel).written = mi.written ++ [[0x90 ||| c, pitch, vel]] ∧
      noteInfo (b0, b1, b2) = (b0 &&& 0x0F, b1, b2) ∧
      (parseFlags (ch + 1) (ch + 1) dev).inChannel = ch ∧
      (parseFlags (ch + 1) (ch + 1) dev).outChannel = ch ∧
      (0x90 ||| ch) / 16 = 0x9 ∧
      noteInfo (0x90 ||| ch, pitch, vel) = (ch, pitch, vel) := by
  have hpf : uint8 ((ch : Int) + 1 - 1) = ch := by
    unfold uint8
    omega
  refine ⟨?_, rfl, hpf, hpf, ?_, ?_⟩
  · have h1 : (0x90 ||| c) % 256 = 0x90 ||| c :=
      Nat.mod_eq_of_lt (Nat.or_lt_two_pow (n := 8) (by decide) hc)
    simp only [midiInterface.sendNoteOn, h1, Nat.mod_eq_of_lt hp, Nat.mod_eq_of_lt hv]
  · interval_cases ch <;> rfl
  · have h2 : (0x90 ||| ch) &&& 0x0F = ch := by
      interval_cases ch <;> rfl
    simp only [noteInfo, h2]

/-- C8 at channel 1, pitch 60 and velocity 100. -/
theorem C8_sendNoteOn_noteInfo_witness :
    ((⟨[]⟩ : midiInterface).sendNoteOn 1 60 100).written = [] ++ [[0x90 ||| 1, 60, 100]] ∧
      noteInfo (0x91, 60, 100) = (0x91 &&& 0x0F, 60, 100) ∧
      (parseFlags ((1 : Nat) + 1) ((1 : Nat) + 1) "").inChannel = 1 ∧
      (parseFlags ((1 : Nat) + 1) ((1 : Nat) + 1) "").outChannel = 1 ∧
      (0x90 ||| 1) / 16 = 0x9 ∧
      noteInfo (0x90 ||| 1, 60, 100) = (1, 60, 100) :=
  C8_sendNoteOn_noteInfo ⟨[]⟩ 1 1 60 100 "" 0x91 60 100 (by decide) (by decide) (by decide)
    (by decide)

/-- C9: with the real `π`, `cos` and `sin`, `setupPhysics` registers exactly
`segmentSides = 6` wall segments; segment `i` runs from the vertex at angle
`2πi/6` to the vertex at angle `2π(i+1)/6` (so each starts where the previous
one ends), has elasticity `segmentElasticity` and collision type
`collSegment`; every vertex has distance 1 from the origin; vertex 0 and
vertex 6 are both `(1, 0)` (the polygon is closed); and every segment has
length 1. -/
theorem C9_setupPhysics_hexagon (t : tombolaSeq ℝ) :
    (setupPhysics ⟨Real.pi, Real.cos, Real.sin⟩ t).space.shapes =
      (List.range segmentSides).map (fun (i : Nat) =>
        ({ body := (setupPhysics ⟨Real.pi, Real.cos, Real.sin⟩ t).seg,
           cls := ShapeClass.Segment (polygonVertex ⟨Real.pi, Real.cos, Real.sin⟩ i)
             (polygonVertex ⟨Real.pi, Real.cos, Real.sin⟩ (i + 1)) (1 / 100),
           elasticity := segmentElasticity, collisionType := collSegment } : Shape ℝ)) ∧
      (setupPhysics ⟨Real.pi, Real.cos, Real.sin⟩ t).space.shapes.length = 6 ∧
      segmentSides = 6 ∧
      (∀ k : Nat, Real.sqrt ((polygonVertex ⟨Real.pi, Real.cos, Real.sin⟩ k).X ^ 2 +
        (polygonVertex ⟨Real.pi, Real.cos, Real.sin⟩ k).Y ^ 2) = 1) ∧
      polygonVertex ⟨Real.pi, Real.cos, Real.sin⟩ 0 = ⟨1, 0⟩ ∧
      polygonVertex ⟨Real.pi, Real.cos, Real.sin⟩ segmentSides = ⟨1, 0⟩ ∧
      (∀ i : Nat, Real.sqrt (
        ((polygonVertex ⟨Real.pi, Real.cos, Real.sin⟩ (i + 1)).X -
          (polygonVertex ⟨Real.pi, Real.cos, Real.sin⟩ i).X) ^ 2 +
        ((polygonVertex ⟨Real.pi, Real.cos, Real.sin⟩ (i + 1)).Y -
          (polygonVertex ⟨Real.pi, Real.cos, Real.sin⟩ i).Y) ^ 2) = 1) := by
  refine ⟨?_, by rw [setupPhysics_shapes]; simp, rfl, ?_, ?_, ?_, ?_⟩
  · rw [setupPhysics_shapes]
    have hseg : (setupPhysics (⟨Real.pi, Real.cos, Real.sin⟩ : GoMath ℝ) t).seg =
        t.heap.length := rfl
    rw [hseg]
    apply List.map_congr_left
    intro i _
    have e1 : 2 * Real.pi / 6 * ((i : ℝ) + 1) =
        2 * Real.pi * ((i + 1 : Nat) : ℝ) / (segmentSides : ℝ) := by
      simp only [segmentSides]; push_cast; ring
    have e2 : 2 * Real.pi / 6 * (i : ℝ) = 2 * Real.pi * (i : ℝ) / (segmentSides : ℝ) := by
      simp only [segmentSides]; push_cast; ring
    by_cases hi : i = 0
    · subst hi
      simp only [polygonVertex, ↓reduceIte, e1]
      simp
    · simp only [polygonVertex, hi, ↓reduceIte, e1, e2]
  · intro k
    simp only [polygonVertex]
    rw [Real.cos_sq_add_sin_sq, Real.sqrt_one]
  · simp [polygonVertex]
  · have h : 2 * Real.pi * ((segmentSides : Nat) : ℝ) / (segmentSides : ℝ) = 2 * Real.pi := by
      simp only [segmentSides]; push_cast; ring
    simp only [polygonVertex, h, Real.cos_two_pi, Real.sin_two_pi]
  · intro i
    simp only [polygonVertex]
    rw [chord_sq _ _ (by simp only [segmentSides]; push_cast; ring), Real.sqrt_one]

/-- C10 (as stated, refuted): from a new sequencer at time 0, in `float64`
arithmetic, 25 ticks of 1 ms and one tick of 25 ms both end at 25 ms, but with
different container angles (`0.014999999999999998` and `0.015`); and after
one tick of 20 s the angle is 12, which is above `2π`, so it is not a value
reduced modulo `2π`. -/
theorem C10_angle_depends_on_ticks :
    (run exampleMidi (floatTicks 25 1000000 0) (exampleNew, 0)).map
        (fun r => (segAngle r.1, r.2)) =
      some (8646911284551351 / 576460752303423488, 25000000) ∧
      (run exampleMidi (floatTicks 1 25000000 0) (exampleNew, 0)).map
        (fun r => (segAngle r.1, r.2)) =
      some (1080863910568919 / 72057594037927936, 25000000) ∧
      (8646911284551351 / 576460752303423488 : ℚ) ≠ 1080863910568919 / 72057594037927936 ∧
      (run exampleMidi (floatTicks 1 20000000000 0) (exampleNew, 0)).map
        (fun r => (segAngle r.1, r.2)) =
      some (12, 20000000000) ∧
      2 * Real.pi < ((12 : ℚ) : ℝ) := by
  refine ⟨by decide!, by decide!, by decide!, by decide!, ?_⟩
  have := Real.pi_lt_d2
  push_cast
  linarith

/-- C10 (amended): on a tick `run` steps the engine by the time since the
previous tick (`now - lastTime` nanoseconds, converted to `float64` seconds),
sets `lastTime` to `now`, sweeps, and goes on with the remaining events; a step
of length `dt` takes the container angle `a` to `a + segmentRotation * dt`
computed in `float64`, never reduced modulo `2π`.  Over any sequence of events
(ticks and MIDI batches) that the process survives, starting in a reachable
state at time `T0`: `lastTime` ends as the time of the last tick and the tick
intervals in nanoseconds sum to the elapsed time; in exact arithmetic the step
sizes in seconds sum to the elapsed time and the angle of the container is its
angle at the start plus `segmentRotation` times the elapsed time, whatever the
number of ticks.  A tick whose callbacks are for allocated bodies other than
the container is survived; the angle of a new container is 0. -/
theorem C10_run_container_angle {α : Type} [LinearOrderedField α] [FloorRing α]
    (lib : GoMidi) (t : tombolaSeq α) (h : Reachable t) (T0 : Int)
    (events : List (Event α)) (t' : tombolaSeq α) (last : Int)
    (hr : run lib events (t, T0) = some (t', last)) :
    (∀ now sv order rest,
      run lib (Event.tick now sv order :: rest) (t, T0) =
        (Step (sv.fl (sv.fl ((now - T0 : Int) : α) / 1000000000)) sv t).bind
          (fun t1 => run lib rest (deleteDropouts order t1, now))) ∧
      (∀ pkts rest,
        run lib (Event.packets pkts :: rest) (t, T0) =
          (processMIDI lib pkts t).bind (fun t1 => run lib rest (t1, T0))) ∧
      (∀ dt sv t1, Step dt sv t = some t1 →
        segAngle t1 = sv.fl (segAngle t + sv.fl (sv.fl segmentRotation * dt))) ∧
      last = lastTick events T0 ∧
      (stepDeltas events T0).sum = last - T0 ∧
      (ExactTicks events →
        (stepSizes events T0).sum = ((last - T0 : Int) : α) / 1000000000 ∧
          segAngle t' =
            segAngle t + segmentRotation * (((last - T0 : Int) : α) / 1000000000)) ∧
      (∀ events2 t2, ExactTicks events → ExactTicks events2 →
        run lib events2 (t, T0) = some (t2, last) → segAngle t2 = segAngle t') ∧
      (∀ now sv order,
        (∀ a ∈ sv.contacts, a.IsFirstContact = true →
          a.bodyA < t.heap.length ∧ a.bodyA ≠ t.seg) →
        ∃ t1, Step (sv.fl (sv.fl ((now - T0 : Int) : α) / 1000000000)) sv t = some t1 ∧
          run lib [Event.tick now sv order] (t, T0) = some (deleteDropouts order t1, now)) ∧
      (∀ (m : GoMath α) (mi : midiInterface) (cfg : config),
        segAngle (newTombolaSeq m mi cfg) = 0) := by
  have hinv := Inv_of_Reachable t h
  obtain ⟨_, r2, r3, r4⟩ := run_spec lib events t t' T0 last hinv hr
  refine ⟨fun now sv order rest => run_tick lib now sv order rest t T0,
    fun pkts rest => run_packets lib pkts rest t T0,
    fun dt sv t1 hs => segAngle_Step dt sv t t1 hinv hs, r2, r3, r4, ?_, ?_,
    segAngle_newTombolaSeq⟩
  · intro events2 t2 hex hex2 hr2
    obtain ⟨_, _, _, q4⟩ := run_spec lib events2 t t2 T0 last hinv hr2
    rw [(q4 hex2).2, (r4 hex).2]
  · intro now sv order ha
    obtain ⟨t1, h1⟩ :=
      Step_progress (sv.fl (sv.fl ((now - T0 : Int) : α) / 1000000000)) sv t hinv ha
    refine ⟨t1, h1, ?_⟩
    rw [run_tick, h1]
    rfl

/-- C10 (amended) at the example run in exact arithmetic: a MIDI batch and two
ticks, at 10 ms and at 25 ms; the first tick runs a first-contact callback,
the second sweeps note 0, and the container ends at the angle `3/200`. -/
theorem C10_run_container_angle_witness :
    (Reachable exampleNew ∧
      run exampleMidi exampleEvents (exampleNew, 0) = some (exampleRun.1, 25000000) ∧
      ExactTicks exampleEvents) ∧
      (25000000 = lastTick exampleEvents 0 ∧
        (stepDeltas exampleEvents 0).sum = 25000000 - 0 ∧
        (stepSizes exampleEvents 0).sum = (((25000000 : Int) - 0 : Int) : ℚ) / 1000000000 ∧
        segAngle exampleRun.1 = segAngle exampleNew +
          segmentRotation * ((((25000000 : Int) - 0 : Int) : ℚ) / 1000000000)) ∧
      (stepDeltas exampleEvents 0 = [10000000, 15000000] ∧
        stepSizes exampleEvents 0 = [1 / 100, 3 / 200] ∧
        segAngle exampleRun.1 = 3 / 200 ∧
        exampleRun.1.midi.written = [[0x91, 60, 90]] ∧
        exampleRun.1.notes.lookup 0 = none ∧
        exampleRun.1.notes.lookup 1 = some ⟨61, 2⟩) :=
  have hR : Reachable exampleNew := ⟨ratMath, ⟨[]⟩, parseFlags 1 2 "", [], rfl⟩
  have hx : ExactTicks exampleEvents := ⟨fun _ => rfl, fun _ => rfl, trivial⟩
  have hc := C10_run_container_angle exampleMidi exampleNew hR 0 exampleEvents exampleRun.1
    25000000 rfl
  ⟨⟨hR, rfl, hx⟩,
    ⟨hc.2.2.2.1, hc.2.2.2.2.1, (hc.2.2.2.2.2.1 hx).1, (hc.2.2.2.2.2.1 hx).2⟩,
    by decide!⟩

end Opseq
